import Mathlib

/-!
Shallow embedding of the OpenBox falling-sand simulator core (`src/main.cpp`)
and proofs about its per-tick update algorithm, brush operator and
persistence codec.

Modelling conventions:
* grid coordinates are integers; the C++ `grid[x][y]` becomes a total
  function `Grid = ℤ → ℤ → Particle` (all engine accesses are bounds-guarded
  exactly as in the source, so values outside `[0,W) × [0,H)` are never read
  by the simulation);
* C++ `float` arithmetic is idealised as exact rational arithmetic (`ℚ`);
* the pseudo-random source (raylib's `GetRandomValue`, documented to return
  a uniformly distributed value with both bounds included) is modelled as an
  explicit stream of naturals consumed left to right;
* `Particle.procCount` is ghost instrumentation (not present in the source):
  it is incremented exactly when the update pipeline body is entered for a
  cell and is swapped around with the particle, but no simulation code ever
  reads it.  It is used only to state the single-processing invariant.
-/

namespace OpenBox

/-- RGBA color, as raylib's `Color` struct (channels 0..255). -/
structure RColor where
  r : ℕ
  g : ℕ
  b : ℕ
  a : ℕ
deriving DecidableEq

def BLACK : RColor := ⟨0, 0, 0, 255⟩

def GOLD : RColor := ⟨255, 203, 0, 255⟩

def BLUE : RColor := ⟨0, 121, 241, 255⟩

def DARKGRAY : RColor := ⟨80, 80, 80, 255⟩

def RED : RColor := ⟨230, 41, 55, 255⟩

def LIGHTGRAY : RColor := ⟨200, 200, 200, 255⟩

def ORANGE : RColor := ⟨255, 161, 0, 255⟩

def SKYBLUE : RColor := ⟨102, 191, 255, 255⟩

def BROWN : RColor := ⟨127, 106, 79, 255⟩

def GREEN : RColor := ⟨0, 228, 48, 255⟩

def BEIGE : RColor := ⟨211, 176, 131, 255⟩

def DARKGREEN : RColor := ⟨0, 117, 44, 255⟩

def WHITE : RColor := ⟨255, 255, 255, 255⟩

/-- Color of glass in the table: `Fade(WHITE, 0.5f)`, i.e. WHITE with alpha
`(unsigned char)(255*0.5f) = 127`. -/
def GLASSWHITE : RColor := ⟨255, 255, 255, 127⟩

/-- The `ParticleType` enumeration of `main.cpp`. -/
inductive ParticleType where
  | EMPTY
  | SAND
  | WATER
  | WALL
  | FIRE
  | SMOKE
  | STEAM
  | LAVA
  | ICE
  | OIL
  | ACID
  | WOOD
  | PLANT
  | SALT
  | GLASS
  | METAL
deriving DecidableEq

/-- The `ParticleProperties` record of `main.cpp`. -/
structure ParticleProperties where
  color : RColor
  movable : Bool
  flammable : Bool
  mass : ℚ
  temperature : ℚ
  conductivity : ℚ
  viscosity : ℚ
  lifetime : ℤ
deriving DecidableEq

/-- The `particleProps` lookup table.  The C++ table is an `unordered_map`
accessed with `operator[]`; `EMPTY` has no entry, so looking it up yields the
value-initialised record (all zeroes / `false`), which we reproduce here. -/
def particleProps : ParticleType → ParticleProperties
  | ParticleType.SAND  => ⟨GOLD, true, false, 3/2, 20, 1/5, 0, -1⟩
  | ParticleType.WATER => ⟨BLUE, true, false, 1, 20, 1/2, 4/5, -1⟩
  | ParticleType.WALL  => ⟨DARKGRAY, false, false, 999, 20, 1/10, 0, -1⟩
  | ParticleType.FIRE  => ⟨RED, true, false, 1/10, 800, 1, 0, 100⟩
  | ParticleType.SMOKE => ⟨DARKGRAY, true, false, 1/5, 100, 1/10, 3/10, 200⟩
  | ParticleType.STEAM => ⟨LIGHTGRAY, true, false, 3/10, 100, 3/10, 1/5, 150⟩
  | ParticleType.LAVA  => ⟨ORANGE, true, false, 2, 1000, 4/5, 9/10, -1⟩
  | ParticleType.ICE   => ⟨SKYBLUE, false, false, 9/10, -10, 9/10, 0, -1⟩
  | ParticleType.OIL   => ⟨BROWN, true, true, 4/5, 20, 1/10, 2/5, -1⟩
  | ParticleType.ACID  => ⟨GREEN, true, false, 6/5, 20, 3/10, 1/2, -1⟩
  | ParticleType.WOOD  => ⟨BEIGE, false, true, 7/10, 20, 1/5, 0, -1⟩
  | ParticleType.PLANT => ⟨DARKGREEN, false, true, 3/5, 20, 3/10, 0, -1⟩
  | ParticleType.SALT  => ⟨WHITE, true, false, 11/10, 20, 1/5, 0, -1⟩
  | ParticleType.GLASS => ⟨GLASSWHITE, false, false, 3/2, 20, 2/5, 0, -1⟩
  | ParticleType.METAL => ⟨LIGHTGRAY, false, false, 2, 20, 9/10, 0, -1⟩
  | ParticleType.EMPTY => ⟨⟨0, 0, 0, 0⟩, false, false, 0, 0, 0, 0, 0⟩

/-- The `Particle` struct of `main.cpp` (field order as in the source),
plus the ghost field `procCount` (see module docstring). -/
structure Particle where
  type : ParticleType
  color : RColor
  updated : Bool
  temperature : ℚ
  velocity_y : ℚ
  velocity_x : ℚ
  lifetime : ℤ
  procCount : ℕ
deriving DecidableEq

/-- The grid, as a total function; out-of-bounds cells are never read by the
bounds-guarded engine. -/
def Grid : Type := ℤ → ℤ → Particle

/-- Write one cell (the C++ assignment `grid[x][y] = p`). -/
def setCell (g : Grid) (x y : ℤ) (p : Particle) : Grid :=
  fun a b => if a = x ∧ b = y then p else g a b

/-- Exchange the full state of two cells (`std::swap(grid[x][y], grid[a][b])`). -/
def swapCells (g : Grid) (x y a b : ℤ) : Grid :=
  setCell (setCell g x y (g a b)) a b (g x y)

/-- `IsValidPosition` from `main.cpp`, parametrised by the grid dimensions. -/
def IsValidPosition (W H x y : ℤ) : Bool :=
  decide (0 ≤ x ∧ x < W ∧ 0 ≤ y ∧ y < H)

/-- The random source: a stream of naturals.  raylib's `GetRandomValue(lo,hi)`
returns a uniform value in `[lo, hi]` (both bounds included); we realise a
draw by reducing the next stream element modulo the size of that range. -/
def GetRandomValue (lo hi : ℤ) (r : List ℕ) : ℤ × List ℕ :=
  (lo + (r.headD 0 : ℤ) % (hi - lo + 1), r.tail)

def TEMPERATURE_SPREAD : ℚ := 1/5

def COOLING_RATE : ℚ := 1/20

/-- The 3×3 neighbourhood offsets scanned by every `for (dx) for (dy)` loop. -/
def offs : List ℤ := [-1, 0, 1]

/-- The same offsets as a flat list of pairs, outer `dx` first, matching the
nesting order of the C++ loops. -/
def offPairs : List (ℤ × ℤ) := offs.flatMap fun dx => offs.map fun dy => (dx, dy)

/-- Accumulation loop of `UpdateTemperature`: starting from
`(current.temperature, 1)`, add the temperature of every in-bounds cell of
the 3×3 block around `(x,y)` (note: the source's loop does not exclude
`dx = dy = 0`, so the cell's own temperature is added a second time). -/
def tempAccum (W H : ℤ) (g : Grid) (x y : ℤ) : ℚ × ℚ :=
  offs.foldl (fun acc dx => offs.foldl (fun acc dy =>
    if IsValidPosition W H (x + dx) (y + dy) = true then
      (acc.1 + (g (x + dx) (y + dy)).temperature, acc.2 + 1)
    else acc) acc) ((g x y).temperature, 1)

/-- `UpdateTemperature` from `main.cpp`. -/
def UpdateTemperature (W H : ℤ) (g : Grid) (x y : ℤ) : Grid :=
  let acc := tempAccum W H g x y
  let avgTemp := acc.1 / acc.2
  let t1 := avgTemp * TEMPERATURE_SPREAD + (g x y).temperature * (1 - TEMPERATURE_SPREAD)
  let t2 := if t1 > 20 then t1 - COOLING_RATE
            else if t1 < 20 then t1 + COOLING_RATE
            else t1
  setCell g x y { g x y with temperature := t2 }

/-- One step of the water-extinguishes-fire loop in
`HandleParticleInteractions`. -/
def extinguishStep (W H x y : ℤ) (g : Grid) (d : ℤ × ℤ) : Grid :=
  if IsValidPosition W H (x + d.1) (y + d.2) = true ∧
      (g (x + d.1) (y + d.2)).type = ParticleType.FIRE then
    setCell g (x + d.1) (y + d.2) { g (x + d.1) (y + d.2) with type := ParticleType.STEAM }
  else g

/-- One step of the fire-ignites-flammables loop in
`HandleParticleInteractions` (consumes one random draw per flammable
neighbour, ignition on `GetRandomValue(0,100) < 10`). -/
def igniteStep (W H x y : ℤ) (st : Grid × List ℕ) (d : ℤ × ℤ) : Grid × List ℕ :=
  if IsValidPosition W H (x + d.1) (y + d.2) = true ∧
      (particleProps (st.1 (x + d.1) (y + d.2)).type).flammable = true then
    let v := GetRandomValue 0 100 st.2
    if v.1 < 10 then
      (setCell st.1 (x + d.1) (y + d.2)
        { st.1 (x + d.1) (y + d.2) with type := ParticleType.FIRE }, v.2)
    else (st.1, v.2)
  else st

/-- One step of the lava-boils-water loop in `HandleParticleInteractions`. -/
def lavaStep (W H x y : ℤ) (g : Grid) (d : ℤ × ℤ) : Grid :=
  if IsValidPosition W H (x + d.1) (y + d.2) = true ∧
      (g (x + d.1) (y + d.2)).type = ParticleType.WATER then
    setCell g (x + d.1) (y + d.2) { g (x + d.1) (y + d.2) with type := ParticleType.STEAM }
  else g

/-- One step of the acid-dissolves loop in `HandleParticleInteractions`
(dissolution on `GetRandomValue(0,100) < 20`). -/
def acidStep (W H x y : ℤ) (st : Grid × List ℕ) (d : ℤ × ℤ) : Grid × List ℕ :=
  if IsValidPosition W H (x + d.1) (y + d.2) = true ∧
      (st.1 (x + d.1) (y + d.2)).type ≠ ParticleType.EMPTY ∧
      (st.1 (x + d.1) (y + d.2)).type ≠ ParticleType.ACID ∧
      (st.1 (x + d.1) (y + d.2)).type ≠ ParticleType.GLASS then
    let v := GetRandomValue 0 100 st.2
    if v.1 < 20 then
      (setCell st.1 (x + d.1) (y + d.2)
        { st.1 (x + d.1) (y + d.2) with type := ParticleType.EMPTY }, v.2)
    else (st.1, v.2)
  else st

/-- `HandleParticleInteractions` from `main.cpp`: a switch on the current
cell's type.  Water turns neighbouring fire to steam and freezes below 0;
fire ignites flammable neighbours (10%-branch) and may spawn smoke above
(5%-branch); lava boils neighbouring water and cools to metal below 800;
acid dissolves eligible neighbours (20%-branch). -/
def HandleParticleInteractions (W H : ℤ) (g : Grid) (x y : ℤ) (rng : List ℕ) :
    Grid × List ℕ :=
  match (g x y).type with
  | ParticleType.WATER =>
      let g1 := offs.foldl (fun g dx => offs.foldl (fun g dy =>
        extinguishStep W H x y g (dx, dy)) g) g
      if (g1 x y).temperature < 0 then
        (setCell g1 x y { g1 x y with type := ParticleType.ICE }, rng)
      else (g1, rng)
  | ParticleType.FIRE =>
      let st1 := offs.foldl (fun st dx => offs.foldl (fun st dy =>
        igniteStep W H x y st (dx, dy)) st) (g, rng)
      let v := GetRandomValue 0 100 st1.2
      if v.1 < 5 then
        if IsValidPosition W H x (y - 1) = true ∧
            (st1.1 x (y - 1)).type = ParticleType.EMPTY then
          (setCell st1.1 x (y - 1)
            { st1.1 x (y - 1) with type := ParticleType.SMOKE }, v.2)
        else (st1.1, v.2)
      else (st1.1, v.2)
  | ParticleType.LAVA =>
      let g1 := offs.foldl (fun g dx => offs.foldl (fun g dy =>
        lavaStep W H x y g (dx, dy)) g) g
      if (g1 x y).temperature < 800 then
        (setCell g1 x y { g1 x y with type := ParticleType.METAL }, rng)
      else (g1, rng)
  | ParticleType.ACID =>
      (offs.foldl (fun st dx => offs.foldl (fun st dy =>
        acidStep W H x y st (dx, dy)) st) (g, rng))
  | _ => (g, rng)

/-- One step of the water-dissolves-salt loop in `ProcessChemicalReactions`:
a salt neighbour becomes empty and the water cell's color is set to the
salt-water tint `SKYBLUE`. -/
def saltStep (W H x y : ℤ) (g : Grid) (d : ℤ × ℤ) : Grid :=
  if IsValidPosition W H (x + d.1) (y + d.2) = true ∧
      (g (x + d.1) (y + d.2)).type = ParticleType.SALT then
    let g1 := setCell g (x + d.1) (y + d.2)
      { g (x + d.1) (y + d.2) with type := ParticleType.EMPTY }
    setCell g1 x y { g1 x y with color := SKYBLUE }
  else g

/-- `ProcessChemicalReactions` from `main.cpp`: hot sand vitrifies (and the
function returns immediately); water dissolves neighbouring salt. -/
def ProcessChemicalReactions (W H : ℤ) (g : Grid) (x y : ℤ) : Grid :=
  if (g x y).type = ParticleType.SAND ∧ (g x y).temperature > 1700 then
    setCell g x y { g x y with type := ParticleType.GLASS }
  else if (g x y).type = ParticleType.WATER then
    offs.foldl (fun g dx => offs.foldl (fun g dy =>
      saltStep W H x y g (dx, dy)) g) g
  else g

/-- Zero the velocity fields of the cell at `(x,y)` (the `if (moved)` reset at
the end of `UpdatePhysics`; note that after a swap `current` refers to the
particle newly occupying the original position). -/
def zeroVel (g : Grid) (x y : ℤ) : Grid :=
  setCell g x y { g x y with velocity_x := 0, velocity_y := 0 }

/-- `UpdatePhysics` from `main.cpp`: gravity (fall into an empty cell directly
below), lateral spreading for water/oil, diagonal-down slide for sand.  The
random draw `GetRandomValue(0,1) * 2 - 1` picks the side tried first. -/
def UpdatePhysics (W H : ℤ) (g : Grid) (x y : ℤ) (rng : List ℕ) :
    Grid × List ℕ :=
  if (particleProps (g x y).type).movable = false then (g, rng)
  else if y < H - 1 ∧ (g x (y + 1)).type = ParticleType.EMPTY then
    (zeroVel (swapCells g x y x (y + 1)) x y, rng)
  else if (g x y).type = ParticleType.WATER ∨ (g x y).type = ParticleType.OIL then
    let v := GetRandomValue 0 1 rng
    let dir := v.1 * 2 - 1
    if IsValidPosition W H (x + dir) y = true ∧
        (g (x + dir) y).type = ParticleType.EMPTY then
      (zeroVel (swapCells g x y (x + dir) y) x y, v.2)
    else if IsValidPosition W H (x - dir) y = true ∧
        (g (x - dir) y).type = ParticleType.EMPTY then
      (zeroVel (swapCells g x y (x - dir) y) x y, v.2)
    else (g, v.2)
  else if (g x y).type = ParticleType.SAND then
    let v := GetRandomValue 0 1 rng
    let dir := v.1 * 2 - 1
    if IsValidPosition W H (x + dir) (y + 1) = true ∧
        (g (x + dir) (y + 1)).type = ParticleType.EMPTY then
      (zeroVel (swapCells g x y (x + dir) (y + 1)) x y, v.2)
    else if IsValidPosition W H (x - dir) (y + 1) = true ∧
        (g (x - dir) (y + 1)).type = ParticleType.EMPTY then
      (zeroVel (swapCells g x y (x - dir) (y + 1)) x y, v.2)
    else (g, v.2)
  else (g, rng)

/-- Entry of the update pipeline: `current.updated = true`, plus the ghost
entry count bump (see module docstring — no simulation code reads it). -/
def entryMark (g : Grid) (x y : ℤ) : Grid :=
  setCell g x y { g x y with updated := true, procCount := (g x y).procCount + 1 }

/-- Stages 2–5 of `UpdateParticle`: physics, temperature diffusion,
interactions, chemical reactions, in the source's order. -/
def restPipeline (W H x y : ℤ) (g : Grid) (rng : List ℕ) : Grid × List ℕ :=
  let pr := UpdatePhysics W H g x y rng
  let g2 := UpdateTemperature W H pr.1 x y
  let pr3 := HandleParticleInteractions W H g2 x y pr.2
  (ProcessChemicalReactions W H pr3.1 x y, pr3.2)

/-- `UpdateParticle` from `main.cpp`: guard (bounds and processed flag), mark
processed, lifetime decay with early exit, then the rest of the pipeline. -/
def UpdateParticle (W H x y : ℤ) (st : Grid × List ℕ) : Grid × List ℕ :=
  if ¬(IsValidPosition W H x y = true) ∨ (st.1 x y).updated = true then st
  else
    let g := entryMark st.1 x y
    if (g x y).lifetime > 0 then
      let g1 := setCell g x y { g x y with lifetime := (g x y).lifetime - 1 }
      if (g1 x y).lifetime ≤ 0 then
        (setCell g1 x y { g1 x y with type := ParticleType.EMPTY }, st.2)
      else restPipeline W H x y g1 st.2
    else restPipeline W H x y g st.2

/-- First loop of `UpdateParticles`: reset the processed flag of every
in-bounds cell. -/
def clearFlags (W H : ℤ) (g : Grid) : Grid :=
  fun x y => if IsValidPosition W H x y = true then { g x y with updated := false }
             else g x y

/-- Inner loop of the tick driver: process `n` columns of row `y` starting at
column `x`, left to right. -/
def updateCols (W H y : ℤ) : ℕ → ℤ → Grid × List ℕ → Grid × List ℕ
  | 0, _, st => st
  | Nat.succ n, x, st => updateCols W H y n (x + 1) (UpdateParticle W H x y st)

/-- Outer loop of the tick driver: process `n` rows starting at row `y`,
bottom to top. -/
def updateRows (W H : ℤ) : ℕ → ℤ → Grid × List ℕ → Grid × List ℕ
  | 0, _, st => st
  | Nat.succ n, y, st => updateRows W H n (y - 1) (updateCols W H y W.toNat 0 st)

/-- `UpdateParticles` from `main.cpp`: clear all processed flags, then scan
rows from `GRID_HEIGHT - 1` down to `0` and columns from `0` up, invoking
`UpdateParticle` once per position. -/
def UpdateParticles (W H : ℤ) (st : Grid × List ℕ) : Grid × List ℕ :=
  updateRows W H H.toNat (H - 1) (clearFlags W H st.1, st.2)

/-- The cell state `InitializeGrid` gives every non-border position: empty,
black, ambient temperature, zero velocity, infinite lifetime, flag clear. -/
def emptyAmbient : Particle := ⟨ParticleType.EMPTY, BLACK, false, 20, 0, 0, -1, 0⟩

/-- The cell state `InitializeGrid` gives every border position: a wall with
the wall color from the table, otherwise identical to `emptyAmbient`. -/
def wallAmbient : Particle :=
  ⟨ParticleType.WALL, (particleProps ParticleType.WALL).color, false, 20, 0, 0, -1, 0⟩

/-- `InitializeGrid` from `main.cpp`: everything empty at ambient temperature,
with a wall floor on the bottom row and wall columns on both sides.  (The
source initialises only in-bounds cells; we apply the same pattern at every
coordinate for definiteness — out-of-bounds cells are never read.) -/
def InitializeGrid (W H : ℤ) : Grid := fun x y =>
  if y = H - 1 ∨ x = 0 ∨ x = W - 1 then wallAmbient else emptyAmbient

/-- Integer interval `[lo, hi]` as a list, in increasing order. -/
def intRange (lo hi : ℤ) : List ℤ :=
  (List.range (hi + 1 - lo).toNat).map fun (i : ℕ) => lo + (i : ℤ)

/-- One write of `PlaceParticles`: overwrite the cell at offset `d` from the
brush centre with a fresh instance of the chosen material, if in-bounds and
within Euclidean distance `r` of the centre.  The source compares
`sqrt(dx*dx + dy*dy) <= brushSize`; for the integer operands in play
(`|dx|,|dy|,brushSize ≤ 20`) this is exactly `dx*dx + dy*dy ≤ r*r`, which is
how we render it to stay in exact arithmetic. -/
def paintStep (W H r : ℤ) (x y : ℤ) (t : ParticleType) (g : Grid) (d : ℤ × ℤ) : Grid :=
  if IsValidPosition W H (x + d.1) (y + d.2) = true ∧ d.1 * d.1 + d.2 * d.2 ≤ r * r then
    setCell g (x + d.1) (y + d.2)
      { g (x + d.1) (y + d.2) with
          type := t
          color := (particleProps t).color
          updated := false
          temperature := (particleProps t).temperature
          velocity_y := 0
          velocity_x := 0
          lifetime := (particleProps t).lifetime }
  else g

/-- `PlaceParticles` from `main.cpp` with the brush radius as an explicit
parameter (`brushSize` is a global in the source): no-op for an out-of-bounds
centre, otherwise stamp a filled disc of fresh material. -/
def PlaceParticles (W H r : ℤ) (g : Grid) (x y : ℤ) (t : ParticleType) : Grid :=
  if ¬(IsValidPosition W H x y = true) then g
  else
    (intRange (-r) r).foldl (fun g dx => (intRange (-r) r).foldl (fun g dy =>
      paintStep W H r x y t g (dx, dy)) g) g

/-- Scan order of the persistence codec: `x` (column) outer, `y` inner,
matching the nested loops of `SaveToFile`/`LoadFromFile`. -/
def posList (W H : ℤ) : List (ℤ × ℤ) :=
  (intRange 0 (W - 1)).flatMap fun x => (intRange 0 (H - 1)).map fun y => (x, y)

/-- The flat sequence of cell records written by `SaveToFile`. -/
def saveRecords (W H : ℤ) (g : Grid) : List Particle :=
  (posList W H).map fun p => g p.1 p.2

/-- `SaveToFile` from `main.cpp`: if the file can be opened (`fileOk`), write
every cell record in scan order; otherwise do nothing (`fopen` returned null
and the body is skipped). -/
def SaveToFile (W H : ℤ) (g : Grid) (fileOk : Bool) : Option (List Particle) :=
  if fileOk then some (saveRecords W H g) else none

/-- `LoadFromFile` from `main.cpp`: if no file could be opened (`none`), the
grid is left untouched; otherwise successive records overwrite the cells in
the same scan order as the save (a short record list leaves the remaining
cells at their previous state, as successive `fread`s fail). -/
def LoadFromFile (W H : ℤ) (g : Grid) (file : Option (List Particle)) : Grid :=
  match file with
  | none => g
  | some recs =>
      ((posList W H).zip recs).foldl (fun g pr => setCell g pr.1.1 pr.1.2 pr.2) g

/-- Modelled from the spec (for claim C1): the temperature accumulation that
the specification describes, in which the cell's own temperature is counted
exactly once and each in-bounds neighbour (offset `(0,0)` excluded)
contributes one term. -/
def tempAccumSpec (W H : ℤ) (g : Grid) (x y : ℤ) : ℚ × ℚ :=
  offs.foldl (fun acc dx => offs.foldl (fun acc dy =>
    if ¬(dx = 0 ∧ dy = 0) ∧ IsValidPosition W H (x + dx) (y + dy) = true then
      (acc.1 + (g (x + dx) (y + dy)).temperature, acc.2 + 1)
    else acc) acc) ((g x y).temperature, 1)

/-- Modelled from the spec (for claim C1): the temperature update as the
claim states it — mean over the cell's own temperature (once) plus one term
per in-bounds neighbour, then the same blend and ambient pull as the code. -/
def UpdateTemperatureSpec (W H : ℤ) (g : Grid) (x y : ℤ) : Grid :=
  let acc := tempAccumSpec W H g x y
  let avgTemp := acc.1 / acc.2
  let t1 := avgTemp * TEMPERATURE_SPREAD + (g x y).temperature * (1 - TEMPERATURE_SPREAD)
  let t2 := if t1 > 20 then t1 - COOLING_RATE
            else if t1 < 20 then t1 + COOLING_RATE
            else t1
  setCell g x y { g x y with temperature := t2 }

/-- Probability that a decision predicate holds when its driving draw is
uniform over the `n` values `0, 1, …, n-1`. -/
def probOf (n : ℕ) (p : ℕ → Bool) : ℚ :=
  (((List.range n).filter p).length : ℚ) / (n : ℚ)

/-- A freshly placed sand particle (the table row for sand, zero velocity,
flag clear), as produced by `PlaceParticles` with material `SAND`. -/
def sandFresh : Particle := ⟨ParticleType.SAND, GOLD, false, 20, 0, 0, -1, 0⟩

/-- A freshly placed water particle. -/
def waterFresh : Particle := ⟨ParticleType.WATER, BLUE, false, 20, 0, 0, -1, 0⟩

/-- A freshly placed fire particle (default temperature 800, lifetime 100). -/
def fireFresh : Particle := ⟨ParticleType.FIRE, RED, false, 800, 0, 0, 100, 0⟩

/-- A freshly placed wood particle. -/
def woodFresh : Particle := ⟨ParticleType.WOOD, BEIGE, false, 20, 0, 0, -1, 0⟩

/-- A freshly placed acid particle. -/
def acidFresh : Particle := ⟨ParticleType.ACID, GREEN, false, 20, 0, 0, -1, 0⟩

/-- A freshly placed salt particle. -/
def saltFresh : Particle := ⟨ParticleType.SALT, WHITE, false, 20, 0, 0, -1, 0⟩

/-- Concrete input for claim C1: an otherwise-ambient unbounded neighbourhood
with one cell at 100 degrees. -/
def gTempDemo : Grid := setCell (fun _ _ => emptyAmbient) 1 1 { emptyAmbient with temperature := 100 }

/-- Concrete input for claim C2: a 3×4 bordered grid with a sand particle of
temperature 1701 at `(1,1)` and an empty cell below it at `(1,2)`. -/
def gSandHot : Grid := setCell (InitializeGrid 3 4) 1 1 { sandFresh with temperature := 1701 }

/-- Concrete input for claim C5 (coin flip): a 5×3 bordered grid with water
at `(2,1)`, floor below, empty cells on both sides. -/
def gCoin : Grid := setCell (InitializeGrid 5 3) 2 1 waterFresh

/-- Concrete input for claim C5 (ignition): fire at `(1,1)` with a single
flammable (wood) neighbour at `(1,0)`; every other neighbour is a wall. -/
def gFireWood : Grid := setCell (setCell (InitializeGrid 3 3) 1 1 fireFresh) 1 0 woodFresh

/-- Concrete input for claim C5 (smoke): fire at `(1,1)` with the cell above
it empty and every other neighbour a wall. -/
def gFire : Grid := setCell (InitializeGrid 3 3) 1 1 fireFresh

/-- Concrete input for claim C5 (acid): acid at `(1,1)` with sand above at
`(1,0)`; the seven remaining neighbours are walls. -/
def gAcid : Grid := setCell (setCell (InitializeGrid 3 3) 1 1 acidFresh) 1 0 sandFresh

/-- The sequence of positions the tick driver visits: rows from `H-1` down to
`0`, and inside each row columns from `0` up to `W-1`. -/
def visitOrder (W H : ℤ) : List (ℤ × ℤ) :=
  (List.range H.toNat).flatMap fun (i : ℕ) =>
    (List.range W.toNat).map fun (j : ℕ) => ((j : ℤ), H - 1 - (i : ℤ))

/-- Strict scan precedence: `p` is visited before `q` iff `p` is on a lower
row (larger `y`), or on the same row strictly to the left. -/
def scanBefore (p q : ℤ × ℤ) : Prop :=
  q.2 < p.2 ∨ (p.2 = q.2 ∧ p.1 < q.1)

/-- Claim C3 scenario, cell pattern: the `InitializeGrid` border walls, a
single sand particle at `(sx, sy)`, everything else empty ambient. -/
def fallCell (W H sx sy x y : ℤ) : Particle :=
  if y = H - 1 ∨ x = 0 ∨ x = W - 1 then wallAmbient
  else if x = sx ∧ y = sy then sandFresh
  else emptyAmbient

/-- Claim C3 scenario, state at a tick boundary after `k` ticks: the sand has
descended `k` rows; after at least one full tick every in-bounds cell has its
processed flag set and has been entered `k` times. -/
def fallState (W H sx sy : ℤ) (k : ℕ) : Grid := fun x y =>
  if IsValidPosition W H x y = true then
    { fallCell W H sx sy x y with updated := decide (0 < k), procCount := k }
  else InitializeGrid W H x y

/-- Claim C3 scenario, state in the middle of a tick scan: `vis` tells which
positions the scan has already visited; `sy` is the sand's current row. -/
def midFall (W H sx sy : ℤ) (k : ℕ) (vis : ℤ → ℤ → Bool) : Grid := fun x y =>
  if IsValidPosition W H x y = true then
    { fallCell W H sx sy x y with
        updated := vis x y
        procCount := if vis x y = true then k + 1 else k }
  else InitializeGrid W H x y

/-- Visited-set of the scan when it is about to process column `c` of row
`r`: all rows strictly below `r`, and the columns of `r` left of `c`. -/
def scanVis (r c : ℤ) : ℤ → ℤ → Bool := fun x y => decide (r < y ∨ (y = r ∧ x < c))

/-- The in-bounds offsets of the 3×3 block around `(x,y)` — including
`(0,0)`, exactly the offsets whose temperatures the diffusion loop adds. -/
def inNbrs (W H x y : ℤ) : List (ℤ × ℤ) :=
  offPairs.filter fun d => IsValidPosition W H (x + d.1) (y + d.2)

/-- Concrete input for claim C8: water at `(1,1)` with salt above at `(1,0)`
in a 3×3 bordered grid. -/
def gWaterSalt : Grid := setCell (setCell (InitializeGrid 3 3) 1 1 waterFresh) 1 0 saltFresh

/-- Frame relation: `r` differs from `g` at most in the material-kind field
of each cell. -/
def TypeOnly (g r : Grid) : Prop :=
  ∀ a b, r a b = { g a b with type := (r a b).type }

/-- Frame relation of the reaction pass run at `(x,y)`: away from `(x,y)`
only material kinds may change, and at `(x,y)` only the material kind and the
stored color. -/
def SaltFrame (x y : ℤ) (g r : Grid) : Prop :=
  (∀ a b, ¬(a = x ∧ b = y) → r a b = { g a b with type := (r a b).type }) ∧
  r x y = { g x y with type := (r x y).type, color := (r x y).color }

/-- Ghost invariant of one cell inside a tick: an unprocessed cell has not
been entered, and no cell has been entered more than once. -/
def CellOK (p : Particle) : Prop :=
  (p.updated = false → p.procCount = 0) ∧ p.procCount ≤ 1

/-- Ghost invariant of the whole grid inside a tick. -/
def GridOK (g : Grid) : Prop := ∀ a b, CellOK (g a b)

/-- Every cell of `r` carries the processed flag and ghost entry count of
some cell of `g` (writes that keep both fields, and swaps, have this shape). -/
def FCPreserved (g r : Grid) : Prop :=
  ∀ a b, ∃ c d, (r a b).updated = (g c d).updated ∧ (r a b).procCount = (g c d).procCount

/-- The fresh particle `PlaceParticles` writes: material `t` with its table
color, default temperature and lifetime, zero velocity, flag clear (the
ghost `procCount` is untouched). -/
def freshCell (p : Particle) (t : ParticleType) : Particle :=
  { p with
      type := t
      color := (particleProps t).color
      updated := false
      temperature := (particleProps t).temperature
      velocity_y := 0
      velocity_x := 0
      lifetime := (particleProps t).lifetime }

/-- The brush offsets scanned by `PlaceParticles`, flattened in loop order. -/
def discPairs (r : ℤ) : List (ℤ × ℤ) :=
  (intRange (-r) r).flatMap fun dx => (intRange (-r) r).map fun dy => (dx, dy)

/-- Claim C5 decision: after one physics step of the blocked water cell of
`gCoin` driven by the draw `v`, the water has moved to the left cell. -/
def coinLeftDecision (v : ℕ) : Bool :=
  decide (((UpdatePhysics 5 3 gCoin 2 1 [v]).1 1 1).type = ParticleType.WATER)

/-- Claim C5 decision: the blocked water cell of `gCoin` moved right. -/
def coinRightDecision (v : ℕ) : Bool :=
  decide (((UpdatePhysics 5 3 gCoin 2 1 [v]).1 3 1).type = ParticleType.WATER)

/-- Claim C5 decision: the wood neighbour of the fire cell of `gFireWood`
ignited during one interaction pass driven by the draw `v`. -/
def igniteDecision (v : ℕ) : Bool :=
  decide (((HandleParticleInteractions 3 3 gFireWood 1 1 [v, 99]).1 1 0).type =
    ParticleType.FIRE)

/-- Claim C5 decision: the fire cell of `gFire` spawned smoke above itself
during one interaction pass driven by the draw `v`. -/
def smokeDecision (v : ℕ) : Bool :=
  decide (((HandleParticleInteractions 3 3 gFire 1 1 [v]).1 1 0).type =
    ParticleType.SMOKE)

/-- Claim C5 decision: the sand neighbour of the acid cell of `gAcid` was
dissolved during one interaction pass; `v` is the draw consumed for that
neighbour (the other seven draws, for the wall neighbours, all fail). -/
def acidDecision (v : ℕ) : Bool :=
  decide (((HandleParticleInteractions 3 3 gAcid 1 1
    [100, 100, 100, v, 100, 100, 100, 100]).1 1 0).type = ParticleType.EMPTY)

/-!  Basic lemmas about the grid store. -/

theorem setCell_eval (g : Grid) (x y : ℤ) (p : Particle) (a b : ℤ) :
    setCell g x y p a b = if a = x ∧ b = y then p else g a b := rfl

theorem setCell_self (g : Grid) (x y : ℤ) : setCell g x y (g x y) = g := by
  funext a b
  simp only [setCell]
  split
  · rename_i h
    rw [h.1, h.2]
  · rfl

theorem isValid_iff {W H x y : ℤ} :
    IsValidPosition W H x y = true ↔ 0 ≤ x ∧ x < W ∧ 0 ≤ y ∧ y < H := by
  simp [IsValidPosition]

/-- Every doubly nested `for (dx) for (dy)` loop over the 3×3 offsets is the
flat fold over `offPairs`. -/
theorem foldl_offPairs {α : Type} (f : α → ℤ × ℤ → α) (a : α) :
    offs.foldl (fun a dx => offs.foldl (fun a dy => f a (dx, dy)) a) a =
      offPairs.foldl f a := rfl

/-!  Claim C1: the temperature-diffusion stage. -/

/-- The diffusion accumulation loop, characterised by a filtered sum: the
result is the cell's own temperature plus one term per in-bounds offset of
the 3×3 block (with `(0,0)` among them), and the term count. -/
theorem tempFold_char (W H : ℤ) (g : Grid) (x y : ℤ) (L : List (ℤ × ℤ))
    (acc : ℚ × ℚ) :
    L.foldl (fun acc d =>
      if IsValidPosition W H (x + d.1) (y + d.2) = true then
        (acc.1 + (g (x + d.1) (y + d.2)).temperature, acc.2 + 1)
      else acc) acc =
    (acc.1 + ((L.filter fun d => IsValidPosition W H (x + d.1) (y + d.2)).map
        fun d => (g (x + d.1) (y + d.2)).temperature).sum,
     acc.2 + ((L.filter fun d => IsValidPosition W H (x + d.1) (y + d.2)).length : ℚ)) := by
  induction L generalizing acc with
  | nil => simp
  | cons d L ih =>
    cases h : IsValidPosition W H (x + d.1) (y + d.2) with
    | false => simp [h, ih]
    | true =>
        simp only [List.foldl_cons, h, if_pos rfl, ih, List.filter_cons_of_pos,
          List.map_cons, List.sum_cons, List.length_cons]
        rw [Prod.mk.injEq]
        push_cast
        constructor <;> ring

theorem tempAccum_char (W H : ℤ) (g : Grid) (x y : ℤ) :
    tempAccum W H g x y =
      ((g x y).temperature + ((inNbrs W H x y).map
          fun d => (g (x + d.1) (y + d.2)).temperature).sum,
        1 + ((inNbrs W H x y).length : ℚ)) := by
  have h0 : tempAccum W H g x y = offPairs.foldl (fun acc d =>
      if IsValidPosition W H (x + d.1) (y + d.2) = true then
        (acc.1 + (g (x + d.1) (y + d.2)).temperature, acc.2 + 1)
      else acc) ((g x y).temperature, 1) :=
    foldl_offPairs (fun acc d =>
      if IsValidPosition W H (x + d.1) (y + d.2) = true then
        (acc.1 + (g (x + d.1) (y + d.2)).temperature, acc.2 + 1)
      else acc) ((g x y).temperature, 1)
  rw [h0, tempFold_char]
  simp [inNbrs]


/-- Pointwise evaluation of `UpdateTemperature`. -/
theorem UpdateTemperature_eval (W H : ℤ) (g : Grid) (x y a b : ℤ) :
    UpdateTemperature W H g x y a b =
      if a = x ∧ b = y then
        { g x y with temperature :=
            let t1 := ((tempAccum W H g x y).1 / (tempAccum W H g x y).2) * TEMPERATURE_SPREAD +
              (g x y).temperature * (1 - TEMPERATURE_SPREAD)
            if t1 > 20 then t1 - COOLING_RATE else if t1 < 20 then t1 + COOLING_RATE else t1 }
      else g a b := rfl

/-- C1 (amended): the diffusion stage blends `new = mean * 0.2 + old * 0.8`
and then applies the unclamped ±0.05 ambient pull, but the mean is taken
over the cell's own temperature plus one term per in-bounds cell of the 3×3
block around it — the block includes offset `(0,0)`, so the cell's own
temperature is counted twice (10 terms for an interior cell).  All other
cells are left unchanged. -/
theorem C1_diffusion_blend_and_ambient_pull (W H : ℤ) (g : Grid) (x y : ℤ)
    (hv : IsValidPosition W H x y = true) :
    (0, 0) ∈ inNbrs W H x y ∧
    ((UpdateTemperature W H g x y) x y).temperature =
      (let m := ((inNbrs W H x y).map fun d => (g (x + d.1) (y + d.2)).temperature).sum
       let c : ℚ := ((inNbrs W H x y).length : ℚ)
       let t1 := (((g x y).temperature + m) / (1 + c)) * (1/5) + (g x y).temperature * (4/5)
       if t1 > 20 then t1 - 1/20 else if t1 < 20 then t1 + 1/20 else t1) ∧
    (∀ a b, ¬(a = x ∧ b = y) → UpdateTemperature W H g x y a b = g a b) := by
  refine ⟨?_, ?_, ?_⟩
  · rw [inNbrs, List.mem_filter]
    exact ⟨by decide, by simpa using hv⟩
  · rw [UpdateTemperature_eval, if_pos ⟨rfl, rfl⟩]
    show (let t1 := _; if t1 > 20 then t1 - COOLING_RATE else
      if t1 < 20 then t1 + COOLING_RATE else t1) = _
    rw [tempAccum_char]
    norm_num [TEMPERATURE_SPREAD, COOLING_RATE]
  · intro a b hab
    rw [UpdateTemperature_eval, if_neg hab]

/-- Witness for C1 at a concrete input. -/
theorem C1_diffusion_blend_and_ambient_pull_witness :
    IsValidPosition 3 3 1 1 = true ∧
    (((UpdateTemperature 3 3 gTempDemo 1 1) 1 1).temperature =
      (let m := ((inNbrs 3 3 1 1).map fun d => (gTempDemo (1 + d.1) (1 + d.2)).temperature).sum
       let c : ℚ := ((inNbrs 3 3 1 1).length : ℚ)
       let t1 := (((gTempDemo 1 1).temperature + m) / (1 + c)) * (1/5) +
         (gTempDemo 1 1).temperature * (4/5)
       if t1 > 20 then t1 - 1/20 else if t1 < 20 then t1 + 1/20 else t1)) :=
  ⟨by decide, (C1_diffusion_blend_and_ambient_pull 3 3 gTempDemo 1 1 (by decide)).2.1⟩

/-- Counterexample for C1 as stated: at a concrete grid (one cell at 100°,
ambient neighbours) the code's diffusion (own temperature counted twice,
10 terms) produces `1743/20 = 87.15`, while the mean described by the claim
(own temperature once, 9 terms) would produce `15431/180 ≈ 85.73`. -/
theorem C1_counterexample :
    ((UpdateTemperature 3 3 gTempDemo 1 1) 1 1).temperature = 1743/20 ∧
    ((UpdateTemperatureSpec 3 3 gTempDemo 1 1) 1 1).temperature = 15431/180 ∧
    (1743/20 : ℚ) ≠ 15431/180 := by
  refine ⟨?_, ?_, by norm_num⟩ <;>
  · norm_num [UpdateTemperature, UpdateTemperatureSpec, tempAccum, tempAccumSpec, offs,
      setCell, IsValidPosition, gTempDemo, emptyAmbient, TEMPERATURE_SPREAD, COOLING_RATE]

/-- C2 (amended): a cell that holds Sand with temperature above 1700 when
the reaction pass runs becomes Glass there, and the reaction pass changes
nothing else (the function returns immediately, checking no further
reaction).  As stated the claim fails: the temperature consulted is the one
after this tick's diffusion stage, not the start-of-tick temperature, and a
particle that moved is not reaction-checked at all this tick (see the
counterexample). -/
theorem C2_hot_sand_vitrifies_in_reaction_pass (W H : ℤ) (g : Grid) (x y : ℤ)
    (hs : (g x y).type = ParticleType.SAND) (ht : (g x y).temperature > 1700) :
    ProcessChemicalReactions W H g x y =
      setCell g x y { g x y with type := ParticleType.GLASS } := by
  rw [ProcessChemicalReactions, if_pos ⟨hs, ht⟩]

/-- Witness for C2 (amended) at a concrete input. -/
theorem C2_hot_sand_vitrifies_in_reaction_pass_witness :
    (gSandHot 1 1).type = ParticleType.SAND ∧ (gSandHot 1 1).temperature > 1700 ∧
    ProcessChemicalReactions 3 4 gSandHot 1 1 =
      setCell gSandHot 1 1 { gSandHot 1 1 with type := ParticleType.GLASS } :=
  ⟨by decide, by decide,
    C2_hot_sand_vitrifies_in_reaction_pass 3 4 gSandHot 1 1 (by decide) (by decide)⟩

/-- Counterexample for C2 as stated: in a 3×4 bordered grid, the cell
`(1,1)` holds Sand with temperature `1701 > 1700` at the start of the tick
and the cell below it is empty.  During that tick the sand moves down one
row; after the tick the particle sits at `(1,2)` and is still Sand — not
Glass — and the vacated cell is Empty.  So a start-of-tick temperature above
1700 does not guarantee Glass "regardless of whether the particle moved". -/
theorem C2_counterexample :
    (gSandHot 1 1).type = ParticleType.SAND ∧
    (gSandHot 1 1).temperature = 1701 ∧
    (gSandHot 1 2).type = ParticleType.EMPTY ∧
    ((UpdateParticles 3 4 (gSandHot, [0, 0, 0, 0])).1 1 2).type = ParticleType.SAND ∧
    ((UpdateParticles 3 4 (gSandHot, [0, 0, 0, 0])).1 1 1).type = ParticleType.EMPTY := by
  refine ⟨by decide, by decide, by decide, by decide, by decide⟩

/-!  Claim C8: water dissolves neighbouring salt. -/

/-- Pointwise evaluation of one salt step. -/
theorem saltStep_eval (W H x y : ℤ) (g : Grid) (d : ℤ × ℤ) (a b : ℤ) :
    saltStep W H x y g d a b =
      if IsValidPosition W H (x + d.1) (y + d.2) = true ∧
          (g (x + d.1) (y + d.2)).type = ParticleType.SALT then
        (if a = x ∧ b = y then
          { (if x = x + d.1 ∧ y = y + d.2 then
               { g (x + d.1) (y + d.2) with type := ParticleType.EMPTY }
             else g x y) with color := SKYBLUE }
         else if a = x + d.1 ∧ b = y + d.2 then
           { g (x + d.1) (y + d.2) with type := ParticleType.EMPTY }
         else g a b)
      else g a b := by
  rw [saltStep]
  by_cases hact : IsValidPosition W H (x + d.1) (y + d.2) = true ∧
      (g (x + d.1) (y + d.2)).type = ParticleType.SALT
  · rw [if_pos hact, if_pos hact]
    simp only [setCell_eval]
  · rw [if_neg hact, if_neg hact]

/-- A cell that already holds `EMPTY` is never changed back by the salt
loop. -/
theorem saltFold_empty (W H x y : ℤ) (L : List (ℤ × ℤ)) : ∀ (g : Grid) (a b : ℤ),
    (g a b).type = ParticleType.EMPTY →
    ((L.foldl (saltStep W H x y) g) a b).type = ParticleType.EMPTY := by
  induction L with
  | nil => intro g a b h; exact h
  | cons d0 L ih =>
    intro g a b h
    rw [List.foldl_cons]
    refine ih _ a b ?_
    rw [saltStep_eval]
    split
    · rename_i hact
      by_cases h1 : a = x ∧ b = y
      · rw [if_pos h1]
        show (if x = x + d0.1 ∧ y = y + d0.2 then _ else g x y).type = ParticleType.EMPTY
        split
        · rfl
        · rw [← h1.1, ← h1.2]
          exact h
      · rw [if_neg h1]
        by_cases h2 : a = x + d0.1 ∧ b = y + d0.2
        · rw [if_pos h2]
        · rw [if_neg h2]
          exact h
    · exact h

/-- The centre water cell keeps its material kind through the salt loop. -/
theorem saltFold_center_water (W H x y : ℤ) (L : List (ℤ × ℤ)) : ∀ (g : Grid),
    (g x y).type = ParticleType.WATER →
    ((L.foldl (saltStep W H x y) g) x y).type = ParticleType.WATER := by
  induction L with
  | nil => intro g h; exact h
  | cons d0 L ih =>
    intro g h
    rw [List.foldl_cons]
    refine ih _ ?_
    rw [saltStep_eval]
    split
    · rename_i hact
      rw [if_pos ⟨rfl, rfl⟩]
      show (if x = x + d0.1 ∧ y = y + d0.2 then _ else g x y).type = ParticleType.WATER
      split
      · rename_i hc
        rw [← hc.1, ← hc.2] at hact
        rw [h] at hact
        cases hact.2
      · exact h
    · exact h

/-- Once the centre cell's color is the salt-water tint it stays so through
the rest of the salt loop. -/
theorem saltFold_color_stays (W H x y : ℤ) (L : List (ℤ × ℤ)) : ∀ (g : Grid),
    (g x y).color = SKYBLUE →
    ((L.foldl (saltStep W H x y) g) x y).color = SKYBLUE := by
  induction L with
  | nil => intro g h; exact h
  | cons d0 L ih =>
    intro g h
    rw [List.foldl_cons]
    refine ih _ ?_
    rw [saltStep_eval]
    split
    · rw [if_pos ⟨rfl, rfl⟩]
    · exact h

/-- Every in-bounds salt neighbour of the water cell is dissolved by the
salt loop (independently, even when there are several). -/
theorem saltFold_dissolves (W H x y : ℤ) (L : List (ℤ × ℤ)) : ∀ (g : Grid),
    (g x y).type = ParticleType.WATER →
    ∀ d ∈ L, IsValidPosition W H (x + d.1) (y + d.2) = true →
      (g (x + d.1) (y + d.2)).type = ParticleType.SALT →
      ((L.foldl (saltStep W H x y) g) (x + d.1) (y + d.2)).type = ParticleType.EMPTY := by
  induction L with
  | nil => intro g hw d hd; cases hd
  | cons d0 L ih =>
    intro g hw d hd hv hs
    rw [List.foldl_cons]
    by_cases h0 : IsValidPosition W H (x + d0.1) (y + d0.2) = true ∧
        (g (x + d0.1) (y + d0.2)).type = ParticleType.SALT
    · by_cases hpos : x + d.1 = x + d0.1 ∧ y + d.2 = y + d0.2
      · refine saltFold_empty W H x y L _ _ _ ?_
        rw [saltStep_eval, if_pos h0]
        have hne : ¬(x + d.1 = x ∧ y + d.2 = y) := by
          rintro ⟨u, v⟩
          rw [u, v, hw] at hs
          cases hs
        rw [if_neg hne, if_pos hpos]
      · have hw' : ((saltStep W H x y g d0) x y).type = ParticleType.WATER := by
          rw [saltStep_eval, if_pos h0, if_pos ⟨rfl, rfl⟩]
          show (if x = x + d0.1 ∧ y = y + d0.2 then _ else g x y).type = _
          split
          · rename_i hc
            rw [← hc.1, ← hc.2, hw] at h0
            cases h0.2
          · exact hw
        have hs' : ((saltStep W H x y g d0) (x + d.1) (y + d.2)).type = ParticleType.SALT := by
          rw [saltStep_eval, if_pos h0]
          have hne : ¬(x + d.1 = x ∧ y + d.2 = y) := by
            rintro ⟨u, v⟩
            rw [u, v, hw] at hs
            cases hs
          rw [if_neg hne, if_neg hpos]
          exact hs
        refine ih _ hw' d ?_ hv hs'
        rcases List.mem_cons.mp hd with h | h
        · exact absurd ⟨by rw [h], by rw [h]⟩ hpos
        · exact h
    · have hstep : saltStep W H x y g d0 = g := by rw [saltStep, if_neg h0]
      rw [hstep]
      rcases List.mem_cons.mp hd with h | h
      · exact absurd (by rw [← h]; exact ⟨hv, hs⟩) h0
      · exact ih g hw d h hv hs

/-- If some in-bounds neighbour is salt, the water cell's color is the
salt-water tint after the loop. -/
theorem saltFold_sets_color (W H x y : ℤ) (L : List (ℤ × ℤ)) : ∀ (g : Grid),
    (∃ d ∈ L, IsValidPosition W H (x + d.1) (y + d.2) = true ∧
      (g (x + d.1) (y + d.2)).type = ParticleType.SALT) →
    ((L.foldl (saltStep W H x y) g) x y).color = SKYBLUE := by
  induction L with
  | nil =>
    rintro g ⟨d, hd, -⟩
    cases hd
  | cons d0 L ih =>
    rintro g ⟨d, hd, hv, hs⟩
    rw [List.foldl_cons]
    by_cases h0 : IsValidPosition W H (x + d0.1) (y + d0.2) = true ∧
        (g (x + d0.1) (y + d0.2)).type = ParticleType.SALT
    · refine saltFold_color_stays W H x y L _ ?_
      rw [saltStep_eval, if_pos h0, if_pos ⟨rfl, rfl⟩]
    · have hstep : saltStep W H x y g d0 = g := by rw [saltStep, if_neg h0]
      rw [hstep]
      refine ih g ⟨d, ?_, hv, hs⟩
      rcases List.mem_cons.mp hd with h | h
      · exact absurd (by rw [← h]; exact ⟨hv, hs⟩) h0
      · exact h

/-- For a water cell the reaction pass is exactly the salt loop. -/
theorem PCR_water (W H : ℤ) (g : Grid) (x y : ℤ)
    (hw : (g x y).type = ParticleType.WATER) :
    ProcessChemicalReactions W H g x y = offPairs.foldl (saltStep W H x y) g := by
  rw [ProcessChemicalReactions, if_neg (fun hc => by rw [hw] at hc; cases hc.1), if_pos hw]
  exact foldl_offPairs (saltStep W H x y) g

/-- C8: a Water cell with Salt among its neighbours dissolves every such
Salt neighbour to Empty in its reaction pass (each independently), gets the
fixed salt-water tint as its stored color, and keeps its material kind. -/
theorem C8_water_dissolves_neighbouring_salt (W H : ℤ) (g : Grid) (x y : ℤ)
    (hw : (g x y).type = ParticleType.WATER) :
    (∀ d ∈ offPairs, IsValidPosition W H (x + d.1) (y + d.2) = true →
      (g (x + d.1) (y + d.2)).type = ParticleType.SALT →
      ((ProcessChemicalReactions W H g x y) (x + d.1) (y + d.2)).type = ParticleType.EMPTY) ∧
    ((∃ d ∈ offPairs, IsValidPosition W H (x + d.1) (y + d.2) = true ∧
        (g (x + d.1) (y + d.2)).type = ParticleType.SALT) →
      ((ProcessChemicalReactions W H g x y) x y).color = SKYBLUE) ∧
    ((ProcessChemicalReactions W H g x y) x y).type = ParticleType.WATER := by
  rw [PCR_water W H g x y hw]
  exact ⟨fun d hd hv hs => saltFold_dissolves W H x y offPairs g hw d hd hv hs,
    fun hex => saltFold_sets_color W H x y offPairs g hex,
    saltFold_center_water W H x y offPairs g hw⟩

/-- Witness for C8 at a concrete input: water at `(1,1)`, salt at `(1,0)`. -/
theorem C8_water_dissolves_neighbouring_salt_witness :
    (gWaterSalt 1 1).type = ParticleType.WATER ∧
    (gWaterSalt (1 + 0) (1 + -1)).type = ParticleType.SALT ∧
    ((ProcessChemicalReactions 3 3 gWaterSalt 1 1) (1 + 0) (1 + -1)).type =
      ParticleType.EMPTY ∧
    ((ProcessChemicalReactions 3 3 gWaterSalt 1 1) 1 1).color = SKYBLUE ∧
    ((ProcessChemicalReactions 3 3 gWaterSalt 1 1) 1 1).type = ParticleType.WATER := by
  have h := C8_water_dissolves_neighbouring_salt 3 3 gWaterSalt 1 1 (by decide)
  exact ⟨by decide, by decide,
    h.1 (0, -1) (by decide) (by decide) (by decide),
    h.2.1 ⟨(0, -1), by decide, by decide, by decide⟩,
    h.2.2⟩

/-!  Claim C9: interaction and reaction rules write only the material kind
(plus the water cell's color in the salt reaction). -/

theorem typeOnly_refl (g : Grid) : TypeOnly g g := fun _ _ => rfl

/-- Writing `{cell with type := T}` on top of a `TypeOnly` change is again a
`TypeOnly` change. -/
theorem typeOnly_setCell {g h : Grid} (hgh : TypeOnly g h) (u v : ℤ)
    (T : ParticleType) : TypeOnly g (setCell h u v { h u v with type := T }) := by
  intro a b
  rw [setCell_eval]
  split
  · rename_i hc
    rw [hc.1, hc.2]
    conv_lhs => rw [hgh u v]
  · exact hgh a b

theorem typeOnly_trans {g h r : Grid} (h1 : TypeOnly g h) (h2 : TypeOnly h r) :
    TypeOnly g r := by
  intro a b
  conv_lhs => rw [h2 a b]
  conv_lhs => rw [h1 a b]

/-- A fold of `TypeOnly` steps over a grid is a `TypeOnly` change. -/
theorem typeOnly_foldl {g : Grid} (step : Grid → ℤ × ℤ → Grid)
    (hstep : ∀ (h : Grid) (d : ℤ × ℤ), TypeOnly h (step h d))
    (L : List (ℤ × ℤ)) : TypeOnly g (L.foldl step g) := by
  suffices hgen : ∀ (h : Grid), TypeOnly g h → TypeOnly g (L.foldl step h) from
    hgen g (typeOnly_refl g)
  induction L with
  | nil => intro h hh; exact hh
  | cons d L ih =>
    intro h hh
    rw [List.foldl_cons]
    exact ih _ (typeOnly_trans hh (hstep h d))

/-- A fold of `TypeOnly` steps over a grid–rng pair is a `TypeOnly` change. -/
theorem typeOnly_foldl_pair (step : Grid × List ℕ → ℤ × ℤ → Grid × List ℕ)
    (hstep : ∀ (st : Grid × List ℕ) (d : ℤ × ℤ), TypeOnly st.1 (step st d).1)
    (L : List (ℤ × ℤ)) : ∀ (st : Grid × List ℕ), TypeOnly st.1 ((L.foldl step st).1) := by
  induction L with
  | nil => intro st; exact typeOnly_refl _
  | cons d L ih =>
    intro st
    rw [List.foldl_cons]
    exact typeOnly_trans (hstep st d) (ih (step st d))

theorem extinguishStep_typeOnly (W H x y : ℤ) (h : Grid) (d : ℤ × ℤ) :
    TypeOnly h (extinguishStep W H x y h d) := by
  rw [extinguishStep]
  split
  · exact typeOnly_setCell (typeOnly_refl h) _ _ _
  · exact typeOnly_refl h

theorem lavaStep_typeOnly (W H x y : ℤ) (h : Grid) (d : ℤ × ℤ) :
    TypeOnly h (lavaStep W H x y h d) := by
  rw [lavaStep]
  split
  · exact typeOnly_setCell (typeOnly_refl h) _ _ _
  · exact typeOnly_refl h

theorem igniteStep_typeOnly (W H x y : ℤ) (st : Grid × List ℕ) (d : ℤ × ℤ) :
    TypeOnly st.1 (igniteStep W H x y st d).1 := by
  rw [igniteStep]
  split
  · dsimp only
    split
    · exact typeOnly_setCell (typeOnly_refl st.1) _ _ _
    · exact typeOnly_refl st.1
  · exact typeOnly_refl st.1

theorem acidStep_typeOnly (W H x y : ℤ) (st : Grid × List ℕ) (d : ℤ × ℤ) :
    TypeOnly st.1 (acidStep W H x y st d).1 := by
  rw [acidStep]
  split
  · dsimp only
    split
    · exact typeOnly_setCell (typeOnly_refl st.1) _ _ _
    · exact typeOnly_refl st.1
  · exact typeOnly_refl st.1

/-- One salt step changes only material kinds away from the centre, and only
kind and color at the centre. -/
theorem saltStep_frame (W H x y : ℤ) (g : Grid) (d : ℤ × ℤ) :
    (∀ a b, ¬(a = x ∧ b = y) →
      saltStep W H x y g d a b = { g a b with type := (saltStep W H x y g d a b).type }) ∧
    saltStep W H x y g d x y =
      { g x y with type := (saltStep W H x y g d x y).type,
                   color := (saltStep W H x y g d x y).color } := by
  constructor
  · intro a b hab
    rw [saltStep_eval]
    split
    · split
      · rename_i hc
        rw [hc.1, hc.2]
      · rfl
    · rfl
  · rw [saltStep_eval]
    split
    · rw [if_pos (And.intro rfl rfl)]
      split
      · rename_i hc
        rw [← hc.1, ← hc.2]
      · rfl
    · rfl

/-- The whole salt loop keeps the `SaltFrame` shape. -/
theorem saltFold_frame (W H x y : ℤ) (L : List (ℤ × ℤ)) : ∀ (g : Grid),
    (∀ a b, ¬(a = x ∧ b = y) →
      (L.foldl (saltStep W H x y) g) a b =
        { g a b with type := ((L.foldl (saltStep W H x y) g) a b).type }) ∧
    (L.foldl (saltStep W H x y) g) x y =
      { g x y with type := ((L.foldl (saltStep W H x y) g) x y).type,
                   color := ((L.foldl (saltStep W H x y) g) x y).color } := by
  induction L with
  | nil => intro g; exact ⟨fun a b _ => rfl, rfl⟩
  | cons d0 L ih =>
    intro g
    rw [List.foldl_cons]
    obtain ⟨ihn, ihc⟩ := ih (saltStep W H x y g d0)
    obtain ⟨sn, sc⟩ := saltStep_frame W H x y g d0
    constructor
    · intro a b hab
      conv_lhs => rw [ihn a b hab]
      conv_lhs => rw [sn a b hab]
    · conv_lhs => rw [ihc]
      conv_lhs => rw [sc]

/-- The interaction pass changes at most material kinds. -/
theorem HPI_typeOnly (W H : ℤ) (g : Grid) (x y : ℤ) (rng : List ℕ) :
    TypeOnly g (HandleParticleInteractions W H g x y rng).1 := by
  cases htype : (g x y).type
  all_goals rw [HandleParticleInteractions.eq_def, htype]
  case WATER =>
    dsimp only
    rw [foldl_offPairs (extinguishStep W H x y) g]
    split
    · exact typeOnly_setCell
        (typeOnly_foldl _ (extinguishStep_typeOnly W H x y) offPairs) _ _ _
    · exact typeOnly_foldl _ (extinguishStep_typeOnly W H x y) offPairs
  case FIRE =>
    dsimp only
    rw [foldl_offPairs (igniteStep W H x y) (g, rng)]
    have hf : TypeOnly g ((offPairs.foldl (igniteStep W H x y) (g, rng)).1) :=
      typeOnly_foldl_pair _ (igniteStep_typeOnly W H x y) offPairs (g, rng)
    split
    · split
      · exact typeOnly_setCell hf _ _ _
      · exact hf
    · exact hf
  case LAVA =>
    dsimp only
    rw [foldl_offPairs (lavaStep W H x y) g]
    split
    · exact typeOnly_setCell
        (typeOnly_foldl _ (lavaStep_typeOnly W H x y) offPairs) _ _ _
    · exact typeOnly_foldl _ (lavaStep_typeOnly W H x y) offPairs
  case ACID =>
    dsimp only
    rw [foldl_offPairs (acidStep W H x y) (g, rng)]
    exact typeOnly_foldl_pair _ (acidStep_typeOnly W H x y) offPairs (g, rng)
  all_goals exact typeOnly_refl g

/-- The reaction pass changes at most material kinds away from the reacting
cell, and at most its kind and color there. -/
theorem PCR_saltFrame (W H : ℤ) (g : Grid) (x y : ℤ) :
    SaltFrame x y g (ProcessChemicalReactions W H g x y) := by
  rw [ProcessChemicalReactions]
  split
  · exact ⟨fun a b hab => by rw [setCell_eval, if_neg hab],
      by rw [setCell_eval, if_pos ⟨rfl, rfl⟩]⟩
  · split
    · rw [foldl_offPairs (saltStep W H x y) g]
      exact ⟨(saltFold_frame W H x y offPairs g).1, (saltFold_frame W H x y offPairs g).2⟩
    · exact ⟨fun a b _ => rfl, rfl⟩

/-- C9: every material transformation of the interaction rules writes only
the material-kind field of the affected cell, and the reaction pass writes
only material kinds away from the reacting cell and only kind and color at
the reacting cell; temperatures, lifetimes, velocities and processed flags
always keep their previous values. -/
theorem C9_rules_write_only_material_kind (W H : ℤ) (g : Grid) (x y : ℤ)
    (rng : List ℕ) :
    TypeOnly g (HandleParticleInteractions W H g x y rng).1 ∧
    SaltFrame x y g (ProcessChemicalReactions W H g x y) :=
  ⟨HPI_typeOnly W H g x y rng, PCR_saltFrame W H g x y⟩

/-- Witness for C9 at a concrete input. -/
theorem C9_rules_write_only_material_kind_witness :
    TypeOnly gWaterSalt (HandleParticleInteractions 3 3 gWaterSalt 1 1 [0]).1 ∧
    SaltFrame 1 1 gWaterSalt (ProcessChemicalReactions 3 3 gWaterSalt 1 1) :=
  C9_rules_write_only_material_kind 3 3 gWaterSalt 1 1 [0]

/-!  Claim C5: the random decision distributions. -/

theorem probOf_eq (n k : ℕ) (p : ℕ → Bool)
    (h : ((List.range n).filter p).length = k) :
    probOf n p = (k : ℚ) / (n : ℚ) := by
  rw [probOf, h]

/-- C5 (amended): under the uniform random source, the left/right movement
bias is an exact 50/50 coin flip, but the percentage events are drawn with
`GetRandomValue(0,100) < k`, whose range has 101 values: fire ignites a
flammable neighbour with probability `10/101` (≈ 9.90%, not exactly 10%),
fire spawns smoke above itself with probability `5/101` (≈ 4.95%), and acid
dissolves an eligible neighbour with probability `20/101` (≈ 19.80%). -/
theorem C5_random_decision_distributions :
    probOf 2 coinLeftDecision = 1/2 ∧ probOf 2 coinRightDecision = 1/2 ∧
    probOf 101 igniteDecision = 10/101 ∧ probOf 101 smokeDecision = 5/101 ∧
    probOf 101 acidDecision = 20/101 := by
  refine ⟨?_, ?_, ?_, ?_, ?_⟩
  · rw [probOf_eq 2 1 coinLeftDecision (by decide)]
    norm_num
  · rw [probOf_eq 2 1 coinRightDecision (by decide)]
    norm_num
  · rw [probOf_eq 101 10 igniteDecision (by decide)]
    norm_num
  · rw [probOf_eq 101 5 smokeDecision (by decide)]
    norm_num
  · rw [probOf_eq 101 20 acidDecision (by decide)]
    norm_num

/-- Counterexample for C5 as stated: the ignition chance is `10/101`, which
is not exactly 10% (and likewise `5/101 ≠ 5%`, `20/101 ≠ 20%`). -/
theorem C5_counterexample :
    probOf 101 igniteDecision = 10/101 ∧ (10/101 : ℚ) ≠ 10/100 ∧
    probOf 101 smokeDecision = 5/101 ∧ (5/101 : ℚ) ≠ 5/100 ∧
    probOf 101 acidDecision = 20/101 ∧ (20/101 : ℚ) ≠ 20/100 := by
  refine ⟨?_, by norm_num, ?_, by norm_num, ?_, by norm_num⟩
  · rw [probOf_eq 101 10 igniteDecision (by decide)]
    norm_num
  · rw [probOf_eq 101 5 smokeDecision (by decide)]
    norm_num
  · rw [probOf_eq 101 20 acidDecision (by decide)]
    norm_num

/-!  Claim C10: save/load with an unopenable file are silent no-ops. -/

/-- C10: when the file cannot be opened, `LoadFromFile` leaves every cell of
the in-memory grid exactly as it was, and `SaveToFile` writes nothing; no
error is reported (both are plain returns, no failure value exists). -/
theorem C10_unopenable_file_noop (W H : ℤ) (g : Grid) :
    LoadFromFile W H g none = g ∧ SaveToFile W H g false = none :=
  ⟨rfl, rfl⟩

/-!  Claim C6: save/load round trip. -/

theorem mem_intRange {lo hi a : ℤ} : a ∈ intRange lo hi ↔ lo ≤ a ∧ a ≤ hi := by
  simp only [intRange, List.mem_map, List.mem_range]
  constructor
  · rintro ⟨i, hi2, rfl⟩
    constructor
    · omega
    · omega
  · rintro ⟨h1, h2⟩
    exact ⟨(a - lo).toNat, by omega, by omega⟩

theorem mem_posList {W H x y : ℤ} :
    (x, y) ∈ posList W H ↔ IsValidPosition W H x y = true := by
  rw [posList, List.mem_flatMap, isValid_iff]
  constructor
  · rintro ⟨a, ha, hb⟩
    rw [List.mem_map] at hb
    obtain ⟨b, hb2, heq⟩ := hb
    obtain ⟨h1, h2⟩ := Prod.mk.injEq .. ▸ heq
    rw [mem_intRange] at ha hb2
    constructor
    · omega
    constructor
    · omega
    constructor
    · omega
    · omega
  · rintro ⟨h1, h2, h3, h4⟩
    refine ⟨x, mem_intRange.mpr ⟨by omega, by omega⟩, ?_⟩
    rw [List.mem_map]
    exact ⟨y, mem_intRange.mpr ⟨by omega, by omega⟩, rfl⟩

/-- Loading the records saved from `g` overwrites each listed position with
its `g`-value and leaves every other position of the target grid alone. -/
theorem load_zip_foldl (g : Grid) (L : List (ℤ × ℤ)) : ∀ (g0 : Grid) (a b : ℤ),
    ((L.zip (L.map fun p => g p.1 p.2)).foldl
      (fun h pr => setCell h pr.1.1 pr.1.2 pr.2) g0) a b =
      if (a, b) ∈ L then g a b else g0 a b := by
  induction L with
  | nil => intro g0 a b; simp
  | cons p L ih =>
    intro g0 a b
    rw [List.map_cons, List.zip_cons_cons, List.foldl_cons, ih]
    by_cases hm : (a, b) ∈ L
    · simp [hm, List.mem_cons]
    · by_cases he : (a, b) = p
      · have h2 : a = p.1 ∧ b = p.2 := by
          constructor
          · rw [← he]
          · rw [← he]
        simp only [hm, if_false, setCell_eval, if_pos h2, List.mem_cons, he, true_or, if_true]
        rw [h2.1, h2.2, ite_self]
      · have hne : ¬(a = p.1 ∧ b = p.2) := by
          rintro ⟨h1, h2⟩
          exact he (by rw [h1, h2])
        simp only [hm, if_false, setCell_eval, if_neg hne, List.mem_cons]
        simp [he]

/-- C6: saving a grid and loading the result into a freshly initialized grid
of the same dimensions reproduces every in-bounds cell exactly (in
particular its material kind, temperature and lifetime), records being
written and read in the same scan order (`posList`). -/
theorem C6_save_load_roundtrip (W H : ℤ) (g : Grid) (x y : ℤ)
    (hv : IsValidPosition W H x y = true) :
    (LoadFromFile W H (InitializeGrid W H) (SaveToFile W H g true)) x y = g x y ∧
    SaveToFile W H g true = some (saveRecords W H g) := by
  constructor
  · show ((( posList W H).zip (saveRecords W H g)).foldl
      (fun h pr => setCell h pr.1.1 pr.1.2 pr.2) (InitializeGrid W H)) x y = g x y
    rw [saveRecords, load_zip_foldl g (posList W H) (InitializeGrid W H) x y,
      if_pos (mem_posList.mpr hv)]
  · rfl

/-- Witness for C6 at a concrete input. -/
theorem C6_save_load_roundtrip_witness :
    IsValidPosition 3 3 1 1 = true ∧
    (LoadFromFile 3 3 (InitializeGrid 3 3) (SaveToFile 3 3 gWaterSalt true)) 1 1 =
      gWaterSalt 1 1 :=
  ⟨by decide, (C6_save_load_roundtrip 3 3 gWaterSalt 1 1 (by decide)).1⟩

/-!  Claim C7: the brush paints exactly the in-bounds disc. -/

/-- Any doubly nested loop over two coordinate lists is the flat fold over
the flattened pair list. -/
theorem foldl_flatMap_pairs {α : Type} (L1 L2 : List ℤ) (f : α → ℤ × ℤ → α) (a : α) :
    L1.foldl (fun a dx => L2.foldl (fun a dy => f a (dx, dy)) a) a =
      (L1.flatMap fun dx => L2.map fun dy => (dx, dy)).foldl f a := by
  induction L1 generalizing a with
  | nil => rfl
  | cons dx L1 ih =>
    rw [List.foldl_cons, List.flatMap_cons, List.foldl_append, List.foldl_map, ih]

theorem freshCell_idem (p : Particle) (t : ParticleType) :
    freshCell (freshCell p t) t = freshCell p t := rfl

/-- Pointwise evaluation of one paint step. -/
theorem paintStep_eval (W H r x y : ℤ) (t : ParticleType) (g : Grid) (d : ℤ × ℤ) :
    paintStep W H r x y t g d =
      if IsValidPosition W H (x + d.1) (y + d.2) = true ∧ d.1 * d.1 + d.2 * d.2 ≤ r * r then
        setCell g (x + d.1) (y + d.2) (freshCell (g (x + d.1) (y + d.2)) t)
      else g := rfl

/-- The brush fold writes a fresh cell at exactly the positions hit by some
in-range offset of the list, and nothing else. -/
theorem paintFold_char (W H r x y : ℤ) (t : ParticleType) (L : List (ℤ × ℤ)) :
    ∀ (g : Grid) (a b : ℤ),
    (L.foldl (paintStep W H r x y t) g) a b =
      if ∃ d ∈ L, x + d.1 = a ∧ y + d.2 = b ∧
          IsValidPosition W H (x + d.1) (y + d.2) = true ∧
          d.1 * d.1 + d.2 * d.2 ≤ r * r then
        freshCell (g a b) t
      else g a b := by
  induction L with
  | nil =>
    intro g a b
    simp
  | cons d0 L ih =>
    intro g a b
    rw [List.foldl_cons, ih, paintStep_eval]
    by_cases hc0 : IsValidPosition W H (x + d0.1) (y + d0.2) = true ∧
        d0.1 * d0.1 + d0.2 * d0.2 ≤ r * r
    · rw [if_pos hc0]
      by_cases hm : x + d0.1 = a ∧ y + d0.2 = b
      · have hset : setCell g (x + d0.1) (y + d0.2)
            (freshCell (g (x + d0.1) (y + d0.2)) t) a b = freshCell (g a b) t := by
          rw [setCell_eval, if_pos ⟨hm.1.symm, hm.2.symm⟩, hm.1, hm.2]
        have hhead : ∃ d ∈ d0 :: L, x + d.1 = a ∧ y + d.2 = b ∧
            IsValidPosition W H (x + d.1) (y + d.2) = true ∧
            d.1 * d.1 + d.2 * d.2 ≤ r * r :=
          ⟨d0, List.mem_cons_self d0 L, hm.1, hm.2, hc0.1, hc0.2⟩
        rw [if_pos hhead, hset]
        split
        · exact freshCell_idem (g a b) t
        · rfl
      · have hset : setCell g (x + d0.1) (y + d0.2)
            (freshCell (g (x + d0.1) (y + d0.2)) t) a b = g a b := by
          rw [setCell_eval, if_neg]
          rintro ⟨h1, h2⟩
          exact hm ⟨h1.symm, h2.symm⟩
        rw [hset]
        have hiff : (∃ d ∈ d0 :: L, x + d.1 = a ∧ y + d.2 = b ∧
            IsValidPosition W H (x + d.1) (y + d.2) = true ∧
            d.1 * d.1 + d.2 * d.2 ≤ r * r) ↔
            (∃ d ∈ L, x + d.1 = a ∧ y + d.2 = b ∧
            IsValidPosition W H (x + d.1) (y + d.2) = true ∧
            d.1 * d.1 + d.2 * d.2 ≤ r * r) := by
          constructor
          · rintro ⟨d, hd, hprops⟩
            rcases List.mem_cons.mp hd with h | h
            · exact absurd ⟨h ▸ hprops.1, h ▸ hprops.2.1⟩ hm
            · exact ⟨d, h, hprops⟩
          · rintro ⟨d, hd, hprops⟩
            exact ⟨d, List.mem_cons_of_mem d0 hd, hprops⟩
        rw [if_congr hiff rfl rfl]
    · rw [if_neg hc0]
      have hiff : (∃ d ∈ d0 :: L, x + d.1 = a ∧ y + d.2 = b ∧
          IsValidPosition W H (x + d.1) (y + d.2) = true ∧
          d.1 * d.1 + d.2 * d.2 ≤ r * r) ↔
          (∃ d ∈ L, x + d.1 = a ∧ y + d.2 = b ∧
          IsValidPosition W H (x + d.1) (y + d.2) = true ∧
          d.1 * d.1 + d.2 * d.2 ≤ r * r) := by
        constructor
        · rintro ⟨d, hd, hprops⟩
          rcases List.mem_cons.mp hd with h | h
          · exact absurd ⟨h ▸ hprops.2.2.1, h ▸ hprops.2.2.2⟩ hc0
          · exact ⟨d, h, hprops⟩
        · rintro ⟨d, hd, hprops⟩
          exact ⟨d, List.mem_cons_of_mem d0 hd, hprops⟩
      rw [if_congr hiff rfl rfl]

/-- C7: painting with an in-bounds centre overwrites exactly the in-bounds
cells within Euclidean distance `r` of the centre (inclusive; rendered as
the exact integer comparison `(a-cx)² + (b-cy)² ≤ r²`) with a fresh instance
of the material — table color, default temperature and lifetime, zero
velocity, cleared flag — and leaves every other cell unchanged; with an
out-of-bounds centre the whole grid is unchanged. -/
theorem C7_paint_fills_exact_disc (W H r : ℤ) (g : Grid) (cx cy : ℤ)
    (t : ParticleType) (hr : 0 ≤ r) : ∀ a b,
    PlaceParticles W H r g cx cy t a b =
      if IsValidPosition W H cx cy = true ∧ IsValidPosition W H a b = true ∧
          (a - cx) * (a - cx) + (b - cy) * (b - cy) ≤ r * r then
        freshCell (g a b) t
      else g a b := by
  intro a b
  by_cases hcent : IsValidPosition W H cx cy = true
  · rw [PlaceParticles, if_neg (not_not_intro hcent),
      foldl_flatMap_pairs (intRange (-r) r) (intRange (-r) r)
        (paintStep W H r cx cy t) g,
      paintFold_char]
    have hiff : (∃ d ∈ ((intRange (-r) r).flatMap fun dx =>
          (intRange (-r) r).map fun dy => (dx, dy)),
          cx + d.1 = a ∧ cy + d.2 = b ∧
          IsValidPosition W H (cx + d.1) (cy + d.2) = true ∧
          d.1 * d.1 + d.2 * d.2 ≤ r * r) ↔
        (IsValidPosition W H a b = true ∧
          (a - cx) * (a - cx) + (b - cy) * (b - cy) ≤ r * r) := by
      constructor
      · rintro ⟨d, hd, h1, h2, h3, h4⟩
        have e1 : d.1 = a - cx := by omega
        have e2 : d.2 = b - cy := by omega
        rw [e1, e2] at h4
        rw [h1, h2] at h3
        exact ⟨h3, h4⟩
      · rintro ⟨hv, hd⟩
        refine ⟨(a - cx, b - cy), ?_, by ring_nf, by ring_nf, ?_, ?_⟩
        · rw [List.mem_flatMap]
          refine ⟨a - cx, mem_intRange.mpr ⟨?_, ?_⟩, ?_⟩
          · nlinarith [mul_self_nonneg (b - cy)]
          · nlinarith [mul_self_nonneg (b - cy)]
          · rw [List.mem_map]
            refine ⟨b - cy, mem_intRange.mpr ⟨?_, ?_⟩, rfl⟩
            · nlinarith [mul_self_nonneg (a - cx)]
            · nlinarith [mul_self_nonneg (a - cx)]
        · have e1 : cx + (a - cx) = a := by ring
          have e2 : cy + (b - cy) = b := by ring
          rw [e1, e2]
          exact hv
        · exact hd
    rw [if_congr hiff rfl rfl]
    simp only [hcent, true_and]
  · rw [PlaceParticles, if_pos hcent,
      if_neg (fun hc => hcent hc.1)]

/-- Witness for C7 at a concrete input: brush radius 1 at centre `(1,1)`. -/
theorem C7_paint_fills_exact_disc_witness :
    (0 : ℤ) ≤ 1 ∧
    (∀ a b, PlaceParticles 3 3 1 (InitializeGrid 3 3) 1 1 ParticleType.SAND a b =
      if IsValidPosition 3 3 1 1 = true ∧ IsValidPosition 3 3 a b = true ∧
          (a - 1) * (a - 1) + (b - 1) * (b - 1) ≤ 1 * 1 then
        freshCell (InitializeGrid 3 3 a b) ParticleType.SAND
      else InitializeGrid 3 3 a b) :=
  ⟨by decide,
    C7_paint_fills_exact_disc 3 3 1 (InitializeGrid 3 3) 1 1 ParticleType.SAND (by decide)⟩

/-!  Claim C4: the tick driver's visit order and the single-processing
invariant. -/

theorem foldl_flatMap {α β γ : Type} (l : List β) (f : β → List γ)
    (step : α → γ → α) : ∀ (a : α),
    (l.flatMap f).foldl step a = l.foldl (fun a b => (f b).foldl step a) a := by
  induction l with
  | nil => intro a; rfl
  | cons b l ih =>
    intro a
    rw [List.flatMap_cons, List.foldl_append, List.foldl_cons, ih]

theorem updateCols_eq_foldl (W H y : ℤ) : ∀ (n : ℕ) (x : ℤ) (st : Grid × List ℕ),
    updateCols W H y n x st =
      (List.range n).foldl (fun st (i : ℕ) => UpdateParticle W H (x + (i : ℤ)) y st) st := by
  intro n
  induction n with
  | zero => intro x st; rfl
  | succ n ih =>
    intro x st
    rw [updateCols, ih, List.range_succ_eq_map, List.foldl_cons, List.foldl_map]
    norm_num
    apply List.foldl_ext
    intro st2 i hi
    have h2 : x + 1 + (i : ℤ) = x + ((i : ℤ) + 1) := by ring
    rw [h2]

theorem updateRows_eq_foldl (W H : ℤ) : ∀ (n : ℕ) (y : ℤ) (st : Grid × List ℕ),
    updateRows W H n y st =
      (List.range n).foldl
        (fun st (i : ℕ) => updateCols W H (y - (i : ℤ)) W.toNat 0 st) st := by
  intro n
  induction n with
  | zero => intro y st; rfl
  | succ n ih =>
    intro y st
    rw [updateRows, ih, List.range_succ_eq_map, List.foldl_cons, List.foldl_map]
    norm_num
    apply List.foldl_ext
    intro st2 i hi
    have h2 : y - 1 - (i : ℤ) = y - ((i : ℤ) + 1) := by ring
    rw [h2]

/-- The tick driver is exactly: clear all processed flags, then fold the
update engine over `visitOrder`. -/
theorem UpdateParticles_eq_visitFold (W H : ℤ) (st : Grid × List ℕ) :
    UpdateParticles W H st =
      (visitOrder W H).foldl (fun s p => UpdateParticle W H p.1 p.2 s)
        (clearFlags W H st.1, st.2) := by
  rw [UpdateParticles, updateRows_eq_foldl, visitOrder, foldl_flatMap]
  apply List.foldl_ext
  intro s i hi
  rw [List.foldl_map, updateCols_eq_foldl]
  apply List.foldl_ext
  intro s2 j hj
  norm_num

/-- `visitOrder` contains exactly the in-bounds positions. -/
theorem mem_visitOrder {W H : ℤ} (p : ℤ × ℤ) :
    p ∈ visitOrder W H ↔ IsValidPosition W H p.1 p.2 = true := by
  rw [visitOrder, List.mem_flatMap, isValid_iff]
  constructor
  · rintro ⟨i, hi, hp⟩
    rw [List.mem_map] at hp
    obtain ⟨j, hj, rfl⟩ := hp
    rw [List.mem_range] at hi hj
    refine ⟨by omega, by omega, by omega, by omega⟩
  · rintro ⟨h1, h2, h3, h4⟩
    refine ⟨(H - 1 - p.2).toNat, ?_, ?_⟩
    · rw [List.mem_range]
      omega
    · rw [List.mem_map]
      refine ⟨p.1.toNat, ?_, ?_⟩
      · rw [List.mem_range]
        omega
      · have e1 : ((p.1.toNat : ℕ) : ℤ) = p.1 := by omega
        have e2 : H - 1 - (((H - 1 - p.2).toNat : ℕ) : ℤ) = p.2 := by omega
        rw [e1, e2]

theorem pairwise_flatMap_of {β : Type} (f : β → List (ℤ × ℤ))
    (R : ℤ × ℤ → ℤ × ℤ → Prop) : ∀ (l : List β),
    l.Pairwise (fun b b' => ∀ p ∈ f b, ∀ q ∈ f b', R p q) →
    (∀ b ∈ l, (f b).Pairwise R) → (l.flatMap f).Pairwise R := by
  intro l
  induction l with
  | nil => intro _ _; exact List.Pairwise.nil
  | cons b l ih =>
    intro hcross hin
    rw [List.flatMap_cons]
    rw [List.pairwise_append]
    refine ⟨hin b (List.mem_cons_self b l), ?_, ?_⟩
    · refine ih (List.pairwise_cons.mp hcross).2 ?_
      intro b' hb'
      exact hin b' (List.mem_cons_of_mem b hb')
    · intro p hp q hq
      rw [List.mem_flatMap] at hq
      obtain ⟨b', hb', hq'⟩ := hq
      exact (List.rel_of_pairwise_cons hcross hb') p hp q hq'

/-- The scan visits rows bottom-to-top and, within a row, columns left to
right. -/
theorem pairwise_visitOrder (W H : ℤ) : (visitOrder W H).Pairwise scanBefore := by
  rw [visitOrder]
  apply pairwise_flatMap_of
  · have hpl : (List.range H.toNat).Pairwise (· < ·) := List.pairwise_lt_range H.toNat
    refine hpl.imp ?_
    intro i i' hii p hp q hq
    rw [List.mem_map] at hp hq
    obtain ⟨j, hj, rfl⟩ := hp
    obtain ⟨j', hj', rfl⟩ := hq
    left
    show H - 1 - (i' : ℤ) < H - 1 - (i : ℤ)
    omega
  · intro i hi
    rw [List.pairwise_map]
    have hpl : (List.range W.toNat).Pairwise (· < ·) := List.pairwise_lt_range W.toNat
    refine hpl.imp ?_
    intro j j' hjj
    right
    refine ⟨rfl, ?_⟩
    show (j : ℤ) < (j' : ℤ)
    exact_mod_cast hjj

theorem nodup_visitOrder (W H : ℤ) : (visitOrder W H).Nodup := by
  refine (pairwise_visitOrder W H).imp ?_
  intro p q hpq
  rcases hpq with h | h
  · intro he
    rw [he] at h
    exact lt_irrefl _ h
  · intro he
    rw [he] at h
    exact lt_irrefl _ h.2

theorem FCP_refl (g : Grid) : FCPreserved g g := fun a b => ⟨a, b, rfl, rfl⟩

theorem FCP_trans {g h r : Grid} (h1 : FCPreserved g h) (h2 : FCPreserved h r) :
    FCPreserved g r := by
  intro a b
  obtain ⟨c, d, hu, hp⟩ := h2 a b
  obtain ⟨e, f2, hu2, hp2⟩ := h1 c d
  exact ⟨e, f2, hu.trans hu2, hp.trans hp2⟩

theorem FCP_of_typeOnly {g r : Grid} (h : TypeOnly g r) : FCPreserved g r := by
  intro a b
  refine ⟨a, b, ?_, ?_⟩
  · conv_lhs => rw [h a b]
  · conv_lhs => rw [h a b]

theorem FCP_of_saltFrame {x y : ℤ} {g r : Grid} (h : SaltFrame x y g r) :
    FCPreserved g r := by
  intro a b
  by_cases hc : a = x ∧ b = y
  · refine ⟨a, b, ?_, ?_⟩
    · rw [hc.1, hc.2]
      conv_lhs => rw [h.2]
    · rw [hc.1, hc.2]
      conv_lhs => rw [h.2]
  · refine ⟨a, b, ?_, ?_⟩
    · conv_lhs => rw [h.1 a b hc]
    · conv_lhs => rw [h.1 a b hc]

theorem FCP_swapCells (g : Grid) (x y a2 b2 : ℤ) :
    FCPreserved g (swapCells g x y a2 b2) := by
  intro a b
  rw [swapCells]
  simp only [setCell_eval]
  split
  · exact ⟨x, y, rfl, rfl⟩
  · split
    · exact ⟨a2, b2, rfl, rfl⟩
    · exact ⟨a, b, rfl, rfl⟩

theorem FCP_zeroVel {g h : Grid} (hf : FCPreserved g h) (x y : ℤ) :
    FCPreserved g (zeroVel h x y) := by
  refine FCP_trans hf ?_
  intro a b
  rw [zeroVel, setCell_eval]
  split
  · exact ⟨x, y, rfl, rfl⟩
  · exact ⟨a, b, rfl, rfl⟩

theorem FCP_updatePhysics (W H : ℤ) (g : Grid) (x y : ℤ) (rng : List ℕ) :
    FCPreserved g (UpdatePhysics W H g x y rng).1 := by
  rw [UpdatePhysics]
  split
  · exact FCP_refl g
  · split
    · exact FCP_zeroVel (FCP_swapCells g x y x (y + 1)) x y
    · split
      · dsimp only
        split
        · exact FCP_zeroVel (FCP_swapCells g x y _ y) x y
        · split
          · exact FCP_zeroVel (FCP_swapCells g x y _ y) x y
          · exact FCP_refl g
      · split
        · dsimp only
          split
          · exact FCP_zeroVel (FCP_swapCells g x y _ (y + 1)) x y
          · split
            · exact FCP_zeroVel (FCP_swapCells g x y _ (y + 1)) x y
            · exact FCP_refl g
        · exact FCP_refl g

theorem FCP_updateTemperature (W H : ℤ) (g : Grid) (x y : ℤ) :
    FCPreserved g (UpdateTemperature W H g x y) := by
  intro a b
  rw [UpdateTemperature_eval]
  split
  · exact ⟨x, y, rfl, rfl⟩
  · exact ⟨a, b, rfl, rfl⟩

theorem gridOK_of_FCP {g r : Grid} (h : GridOK g) (hf : FCPreserved g r) :
    GridOK r := by
  intro a b
  obtain ⟨c, d, hu, hp⟩ := hf a b
  obtain ⟨h1, h2⟩ := h c d
  constructor
  · intro hfa
    rw [hu] at hfa
    rw [hp]
    exact h1 hfa
  · rw [hp]
    exact h2

/-- The full post-entry pipeline (physics, temperature, interactions,
reactions) never touches a processed flag or a ghost entry count. -/
theorem FCP_restPipeline (W H x y : ℤ) (g : Grid) (rng : List ℕ) :
    FCPreserved g (restPipeline W H x y g rng).1 := by
  rw [restPipeline]
  refine FCP_trans (FCP_updatePhysics W H g x y rng) ?_
  refine FCP_trans (FCP_updateTemperature W H _ x y) ?_
  refine FCP_trans
    (FCP_of_typeOnly (HPI_typeOnly W H _ x y (UpdatePhysics W H g x y rng).2)) ?_
  exact FCP_of_saltFrame (PCR_saltFrame W H _ x y)

theorem FCP_setCell_keepSelf (h : Grid) (x y : ℤ) (p : Particle)
    (h1 : p.updated = (h x y).updated) (h2 : p.procCount = (h x y).procCount) :
    FCPreserved h (setCell h x y p) := by
  intro a b
  rw [setCell_eval]
  split
  · exact ⟨x, y, h1, h2⟩
  · exact ⟨a, b, rfl, rfl⟩

/-- One engine invocation preserves the ghost invariant. -/
theorem updateParticle_gridOK (W H x y : ℤ) (st : Grid × List ℕ)
    (h : GridOK st.1) : GridOK (UpdateParticle W H x y st).1 := by
  rw [UpdateParticle]
  split
  · exact h
  · rename_i hguard
    push_neg at hguard
    have hflag : (st.1 x y).updated = false := by
      have hne := hguard.2
      revert hne
      cases (st.1 x y).updated
      · intro _
        rfl
      · intro hcontra
        exact absurd rfl hcontra
    have hcount0 : (st.1 x y).procCount = 0 := (h x y).1 hflag
    have hOK1 : GridOK (entryMark st.1 x y) := by
      intro a b
      rw [entryMark, setCell_eval]
      split
      · constructor
        · intro hfa
          cases hfa
        · show (st.1 x y).procCount + 1 ≤ 1
          rw [hcount0]
      · exact h a b
    have hOK2 : GridOK (setCell (entryMark st.1 x y) x y
        { entryMark st.1 x y x y with
            lifetime := (entryMark st.1 x y x y).lifetime - 1 }) :=
      gridOK_of_FCP hOK1 (FCP_setCell_keepSelf _ x y _ rfl rfl)
    dsimp only
    split
    · split
      · exact gridOK_of_FCP hOK2 (FCP_setCell_keepSelf _ x y _ rfl rfl)
      · exact gridOK_of_FCP hOK2 (FCP_restPipeline W H x y _ st.2)
    · exact gridOK_of_FCP hOK1 (FCP_restPipeline W H x y _ st.2)

theorem updateCols_gridOK (W H y : ℤ) : ∀ (n : ℕ) (x : ℤ) (st : Grid × List ℕ),
    GridOK st.1 → GridOK (updateCols W H y n x st).1 := by
  intro n
  induction n with
  | zero => intro x st h; exact h
  | succ n ih =>
    intro x st h
    rw [updateCols]
    exact ih (x + 1) _ (updateParticle_gridOK W H x y st h)

theorem updateRows_gridOK (W H : ℤ) : ∀ (n : ℕ) (y : ℤ) (st : Grid × List ℕ),
    GridOK st.1 → GridOK (updateRows W H n y st).1 := by
  intro n
  induction n with
  | zero => intro y st h; exact h
  | succ n ih =>
    intro y st h
    rw [updateRows]
    exact ih (y - 1) _ (updateCols_gridOK W H y W.toNat 0 st h)

theorem clearFlags_gridOK (W H : ℤ) (g : Grid)
    (h0 : ∀ a b, (g a b).procCount = 0) : GridOK (clearFlags W H g) := by
  intro a b
  rw [clearFlags]
  split
  · exact ⟨fun _ => h0 a b, by rw [h0 a b]; omega⟩
  · exact ⟨fun _ => h0 a b, by rw [h0 a b]; omega⟩

/-- C4: one tick first clears every processed flag, then visits rows bottom
to top and columns left to right (`visitOrder`, which lists every in-bounds
position exactly once, in scan order), invoking the update engine once per
position; and starting from a grid in which no cell has been entered, after
the full tick no particle has been run through the pipeline body more than
once (ghost entry count at most 1), however often it moved. -/
theorem C4_tick_visits_each_cell_once (W H : ℤ) (st : Grid × List ℕ)
    (h0 : ∀ a b, (st.1 a b).procCount = 0) :
    (UpdateParticles W H st =
      (visitOrder W H).foldl (fun s p => UpdateParticle W H p.1 p.2 s)
        (clearFlags W H st.1, st.2)) ∧
    (∀ p : ℤ × ℤ, p ∈ visitOrder W H ↔ IsValidPosition W H p.1 p.2 = true) ∧
    (visitOrder W H).Pairwise scanBefore ∧
    (visitOrder W H).Nodup ∧
    (∀ a b, ((UpdateParticles W H st).1 a b).procCount ≤ 1) := by
  refine ⟨UpdateParticles_eq_visitFold W H st, fun p => mem_visitOrder p,
    pairwise_visitOrder W H, nodup_visitOrder W H, ?_⟩
  intro a b
  have h1 : GridOK (clearFlags W H st.1) := clearFlags_gridOK W H st.1 h0
  have h2 : GridOK (UpdateParticles W H st).1 := by
    rw [UpdateParticles]
    exact updateRows_gridOK W H H.toNat (H - 1) (clearFlags W H st.1, st.2) h1
  exact (h2 a b).2

/-- Witness for C4 at a concrete input. -/
theorem C4_tick_visits_each_cell_once_witness :
    (∀ a b, ((InitializeGrid 3 3) a b).procCount = 0) ∧
    (∀ a b, ((UpdateParticles 3 3 ((InitializeGrid 3 3), [0])).1 a b).procCount ≤ 1) := by
  have hz : ∀ a b, ((InitializeGrid 3 3) a b).procCount = 0 := by
    intro a b
    rw [InitializeGrid]
    split
    · rfl
    · rfl
  exact ⟨hz, (C4_tick_visits_each_cell_once 3 3 ((InitializeGrid 3 3), [0]) hz).2.2.2.2⟩

/-!  Claim C3: a single grain of sand falls exactly one row per tick. -/

theorem list_sum_const20 (L : List (ℤ × ℤ)) (f : ℤ × ℤ → ℚ)
    (hf : ∀ d ∈ L, f d = 20) : (L.map f).sum = (L.length : ℚ) * 20 := by
  induction L with
  | nil => simp
  | cons d L ih =>
    rw [List.map_cons, List.sum_cons, List.length_cons,
      hf d (List.mem_cons_self d L), ih (fun d hd => hf d (List.mem_cons_of_mem _ hd))]
    push_cast
    ring

/-- In an everywhere-ambient grid the diffusion stage is the identity. -/
theorem updTemp_const20 (W H : ℤ) (g : Grid) (x y : ℤ)
    (h20 : ∀ a b, (g a b).temperature = 20) :
    UpdateTemperature W H g x y = g := by
  have hsum : ((inNbrs W H x y).map fun d => (g (x + d.1) (y + d.2)).temperature).sum
      = ((inNbrs W H x y).length : ℚ) * 20 :=
    list_sum_const20 _ _ (fun d _ => h20 _ _)
  have ht2 : ((tempAccum W H g x y).1 / (tempAccum W H g x y).2) * TEMPERATURE_SPREAD +
      (g x y).temperature * (1 - TEMPERATURE_SPREAD) = 20 := by
    rw [tempAccum_char]
    dsimp only
    rw [hsum, h20 x y]
    have hne : (1 : ℚ) + ((inNbrs W H x y).length : ℚ) ≠ 0 := by
      have : (0 : ℚ) ≤ ((inNbrs W H x y).length : ℚ) := Nat.cast_nonneg _
      intro hcon
      nlinarith
    field_simp
    ring
  funext a b
  rw [UpdateTemperature_eval]
  split
  · rename_i hc
    rw [hc.1, hc.2]
    dsimp only
    rw [ht2]
    norm_num
    rw [← h20 x y]
  · rfl

theorem physics_not_movable (W H : ℤ) (g : Grid) (x y : ℤ) (rng : List ℕ)
    (h : (particleProps (g x y).type).movable = false) :
    UpdatePhysics W H g x y rng = (g, rng) := by
  rw [UpdatePhysics, if_pos h]

theorem physics_sand_down (W H : ℤ) (g : Grid) (x y : ℤ) (rng : List ℕ)
    (hs : (g x y).type = ParticleType.SAND) (hy : y < H - 1)
    (he : (g x (y + 1)).type = ParticleType.EMPTY) :
    UpdatePhysics W H g x y rng = (zeroVel (swapCells g x y x (y + 1)) x y, rng) := by
  rw [UpdatePhysics, if_neg (by rw [hs]; decide), if_pos ⟨hy, he⟩]

theorem hpi_noop (W H : ℤ) (g : Grid) (x y : ℤ) (rng : List ℕ)
    (h : (g x y).type = ParticleType.EMPTY ∨ (g x y).type = ParticleType.WALL ∨
      (g x y).type = ParticleType.SAND) :
    HandleParticleInteractions W H g x y rng = (g, rng) := by
  rcases h with h | h | h <;> rw [HandleParticleInteractions.eq_def, h]

theorem pcr_noop (W H : ℤ) (g : Grid) (x y : ℤ)
    (h : (g x y).type = ParticleType.EMPTY ∨ (g x y).type = ParticleType.WALL) :
    ProcessChemicalReactions W H g x y = g := by
  rw [ProcessChemicalReactions]
  rcases h with h | h <;>
    rw [if_neg (fun hc => by rw [h] at hc; cases hc.1),
      if_neg (fun hc => by rw [h] at hc; cases hc)]

theorem entryMark_self (g : Grid) (x y : ℤ) :
    entryMark g x y x y =
      { g x y with updated := true, procCount := (g x y).procCount + 1 } := by
  rw [entryMark, setCell_eval, if_pos ⟨rfl, rfl⟩]

theorem entryMark_other (g : Grid) (x y a b : ℤ) (h : ¬(a = x ∧ b = y)) :
    entryMark g x y a b = g a b := by
  rw [entryMark, setCell_eval, if_neg h]

/-- Engine invocation on an unprocessed, infinite-lifetime cell: mark the
entry and run the rest of the pipeline. -/
theorem UP_eval_run (W H x y : ℤ) (st : Grid × List ℕ)
    (hv : IsValidPosition W H x y = true) (hu : (st.1 x y).updated = false)
    (hl : ¬((st.1 x y).lifetime > 0)) :
    UpdateParticle W H x y st = restPipeline W H x y (entryMark st.1 x y) st.2 := by
  rw [UpdateParticle, if_neg]
  · dsimp only
    rw [if_neg]
    rw [entryMark_self]
    exact hl
  · rintro (hc | hc)
    · exact hc hv
    · rw [hu] at hc
      cases hc

/-- If the cell at `(x,y)` is empty or wall and every temperature is
ambient, the post-entry pipeline does nothing. -/
theorem restPipeline_inert (W H : ℤ) (g : Grid) (x y : ℤ) (rng : List ℕ)
    (htype : (g x y).type = ParticleType.EMPTY ∨ (g x y).type = ParticleType.WALL)
    (h20 : ∀ a b, (g a b).temperature = 20) :
    restPipeline W H x y g rng = (g, rng) := by
  have hmov : (particleProps (g x y).type).movable = false := by
    rcases htype with h | h <;> rw [h] <;> rfl
  rw [restPipeline]
  rw [physics_not_movable W H g x y rng hmov]
  dsimp only
  rw [updTemp_const20 W H g x y h20]
  rw [hpi_noop W H g x y rng (by
    rcases htype with h | h
    · exact Or.inl h
    · exact Or.inr (Or.inl h))]
  dsimp only
  rw [pcr_noop W H g x y htype]

theorem fallCell_lifetime (W H sx sy x y : ℤ) :
    (fallCell W H sx sy x y).lifetime = -1 := by
  rw [fallCell]
  split
  · rfl
  · split <;> rfl

theorem fallCell_temp (W H sx sy x y : ℤ) :
    (fallCell W H sx sy x y).temperature = 20 := by
  rw [fallCell]
  split
  · rfl
  · split <;> rfl

theorem fallCell_not_sand (W H sx sy x y : ℤ) (h : ¬(x = sx ∧ y = sy)) :
    (fallCell W H sx sy x y).type = ParticleType.EMPTY ∨
    (fallCell W H sx sy x y).type = ParticleType.WALL := by
  rw [fallCell]
  by_cases hb : y = H - 1 ∨ x = 0 ∨ x = W - 1
  · rw [if_pos hb]
    right
    rfl
  · rw [if_neg hb, if_neg h]
    left
    rfl

theorem midFall_in (W H sx sy : ℤ) (k : ℕ) (vis : ℤ → ℤ → Bool) (x y : ℤ)
    (h : IsValidPosition W H x y = true) :
    midFall W H sx sy k vis x y =
      { fallCell W H sx sy x y with
          updated := vis x y
          procCount := if vis x y = true then k + 1 else k } := by
  simp only [midFall]
  rw [if_pos h]

theorem midFall_out (W H sx sy : ℤ) (k : ℕ) (vis : ℤ → ℤ → Bool) (x y : ℤ)
    (h : ¬(IsValidPosition W H x y = true)) :
    midFall W H sx sy k vis x y = InitializeGrid W H x y := by
  simp only [midFall]
  rw [if_neg h]

theorem midFall_temp20 (W H sx sy : ℤ) (k : ℕ) (vis : ℤ → ℤ → Bool) :
    ∀ a b, (midFall W H sx sy k vis a b).temperature = 20 := by
  intro a b
  simp only [midFall]
  split
  · exact fallCell_temp W H sx sy a b
  · simp only [InitializeGrid]
    split <;> rfl

theorem midFall_congr (W H sx sy : ℤ) (k : ℕ) (v1 v2 : ℤ → ℤ → Bool)
    (h : ∀ a b, IsValidPosition W H a b = true → v1 a b = v2 a b) :
    midFall W H sx sy k v1 = midFall W H sx sy k v2 := by
  funext a b
  simp only [midFall]
  split
  · rename_i hv
    rw [h a b hv]
  · rfl

theorem entryMark_midFall (W H sx sy : ℤ) (k : ℕ) (vis : ℤ → ℤ → Bool) (x0 y0 : ℤ)
    (hv : IsValidPosition W H x0 y0 = true) (hvis : vis x0 y0 = false) :
    entryMark (midFall W H sx sy k vis) x0 y0 =
      midFall W H sx sy k (fun x y => if x = x0 ∧ y = y0 then true else vis x y) := by
  funext a b
  by_cases hc : a = x0 ∧ b = y0
  · rw [hc.1, hc.2, entryMark_self, midFall_in W H sx sy k vis x0 y0 hv,
      midFall_in W H sx sy k (fun x y => if x = x0 ∧ y = y0 then true else vis x y) x0 y0 hv]
    simp [hvis]
  · rw [entryMark_other _ _ _ _ _ hc]
    by_cases hval : IsValidPosition W H a b = true
    · rw [midFall_in W H sx sy k vis a b hval,
        midFall_in W H sx sy k (fun x y => if x = x0 ∧ y = y0 then true else vis x y) a b hval]
      simp only [if_neg hc]
    · rw [midFall_out W H sx sy k vis a b hval,
        midFall_out W H sx sy k (fun x y => if x = x0 ∧ y = y0 then true else vis x y) a b hval]

theorem scanVis_extend (r c : ℤ) :
    (fun x y => if x = c ∧ y = r then true else scanVis r c x y) = scanVis r (c + 1) := by
  funext x y
  simp only [scanVis]
  by_cases hc : x = c ∧ y = r
  · rw [if_pos hc, hc.1, hc.2]
    symm
    apply decide_eq_true
    omega
  · rw [if_neg hc]
    rw [decide_eq_decide]
    omega

theorem scanVis_self (r c : ℤ) : scanVis r c c r = false := by
  simp only [scanVis]
  apply decide_eq_false
  omega

theorem scanVis_below (r c x y : ℤ) (h : r < y) : scanVis r c x y = true := by
  simp only [scanVis]
  exact decide_eq_true (Or.inl h)

/-- Scan step on any already-cleared cell other than the sand grain: the only
effect is marking the cell visited. -/
theorem stepA (W H sx sy : ℤ) (k : ℕ) (vis : ℤ → ℤ → Bool) (x0 y0 : ℤ) (rng : List ℕ)
    (hv : IsValidPosition W H x0 y0 = true) (hvis : vis x0 y0 = false)
    (hns : ¬(x0 = sx ∧ y0 = sy)) :
    UpdateParticle W H x0 y0 (midFall W H sx sy k vis, rng) =
      (midFall W H sx sy k (fun x y => if x = x0 ∧ y = y0 then true else vis x y), rng) := by
  have hu : ((midFall W H sx sy k vis) x0 y0).updated = false := by
    rw [midFall_in W H sx sy k vis x0 y0 hv]
    exact hvis
  have hl : ¬(((midFall W H sx sy k vis) x0 y0).lifetime > 0) := by
    rw [midFall_in W H sx sy k vis x0 y0 hv]
    show ¬((fallCell W H sx sy x0 y0).lifetime > 0)
    rw [fallCell_lifetime]
    norm_num
  rw [UP_eval_run W H x0 y0 (midFall W H sx sy k vis, rng) hv hu hl]
  show restPipeline W H x0 y0 (entryMark (midFall W H sx sy k vis) x0 y0) rng = _
  rw [entryMark_midFall W H sx sy k vis x0 y0 hv hvis]
  apply restPipeline_inert
  · rw [midFall_in W H sx sy k _ x0 y0 hv]
    exact fallCell_not_sand W H sx sy x0 y0 hns
  · exact midFall_temp20 W H sx sy k _

/-- The gravity swap plus velocity reset turns the mid-scan state with the
sand at row `sy` into the mid-scan state with the sand at row `sy + 1`. -/
theorem sandSwap_eq (W H sx sy : ℤ) (k : ℕ) (vis : ℤ → ℤ → Bool)
    (hsx0 : 0 < sx) (hsxW : sx < W - 1) (hsy0 : 0 ≤ sy) (hsyH : sy + 1 < H - 1)
    (hself : vis sx sy = true) (hbelow : vis sx (sy + 1) = true) :
    zeroVel (swapCells (midFall W H sx sy k vis) sx sy sx (sy + 1)) sx sy =
      midFall W H sx (sy + 1) k vis := by
  have hvTop : IsValidPosition W H sx sy = true :=
    isValid_iff.mpr ⟨by omega, by omega, by omega, by omega⟩
  have hvBot : IsValidPosition W H sx (sy + 1) = true :=
    isValid_iff.mpr ⟨by omega, by omega, by omega, by omega⟩
  have hfsand : fallCell W H sx sy sx sy = sandFresh := by
    rw [fallCell, if_neg (by omega), if_pos ⟨rfl, rfl⟩]
  have hfempty : fallCell W H sx sy sx (sy + 1) = emptyAmbient := by
    rw [fallCell, if_neg (by omega), if_neg (by omega)]
  have hfsand2 : fallCell W H sx (sy + 1) sx (sy + 1) = sandFresh := by
    rw [fallCell, if_neg (by omega), if_pos ⟨rfl, rfl⟩]
  have hfempty2 : fallCell W H sx (sy + 1) sx sy = emptyAmbient := by
    rw [fallCell, if_neg (by omega), if_neg (by omega)]
  have hfagree : ∀ a b, ¬(a = sx ∧ b = sy) → ¬(a = sx ∧ b = sy + 1) →
      fallCell W H sx sy a b = fallCell W H sx (sy + 1) a b := by
    intro a b h1 h2
    rw [fallCell, fallCell]
    by_cases hb : b = H - 1 ∨ a = 0 ∨ a = W - 1
    · rw [if_pos hb, if_pos hb]
    · rw [if_neg hb, if_neg hb, if_neg h1, if_neg h2]
  funext a b
  rw [zeroVel, swapCells]
  by_cases h1 : a = sx ∧ b = sy
  · rw [h1.1, h1.2]
    rw [setCell_eval, if_pos ⟨rfl, rfl⟩]
    have hinner : (setCell (setCell (midFall W H sx sy k vis) sx sy
        ((midFall W H sx sy k vis) sx (sy + 1))) sx (sy + 1)
        ((midFall W H sx sy k vis) sx sy)) sx sy = (midFall W H sx sy k vis) sx (sy + 1) := by
      rw [setCell_eval, if_neg (by omega), setCell_eval, if_pos ⟨rfl, rfl⟩]
    rw [hinner]
    rw [midFall_in W H sx sy k vis sx (sy + 1) hvBot, hfempty, hbelow]
    rw [midFall_in W H sx (sy + 1) k vis sx sy hvTop, hfempty2, hself]
    rfl
  · by_cases h2 : a = sx ∧ b = sy + 1
    · rw [h2.1, h2.2]
      rw [setCell_eval, if_neg (by omega), setCell_eval, if_pos ⟨rfl, rfl⟩]
      rw [midFall_in W H sx sy k vis sx sy hvTop, hfsand, hself]
      rw [midFall_in W H sx (sy + 1) k vis sx (sy + 1) hvBot, hfsand2, hbelow]
    · rw [setCell_eval, if_neg h1, setCell_eval, if_neg h2, setCell_eval, if_neg h1]
      by_cases hval : IsValidPosition W H a b = true
      · rw [midFall_in W H sx sy k vis a b hval,
          midFall_in W H sx (sy + 1) k vis a b hval, hfagree a b h1 h2]
      · rw [midFall_out W H sx sy k vis a b hval,
          midFall_out W H sx (sy + 1) k vis a b hval]

/-- Scan step on the sand grain when the cell below is empty and already
visited: the grain moves down exactly one row and the cell is marked. -/
theorem stepB (W H sx sy : ℤ) (k : ℕ) (vis : ℤ → ℤ → Bool) (rng : List ℕ)
    (hsx0 : 0 < sx) (hsxW : sx < W - 1) (hsy0 : 0 ≤ sy) (hsyH : sy + 1 < H - 1)
    (hvis : vis sx sy = false) (hbelow : vis sx (sy + 1) = true) :
    UpdateParticle W H sx sy (midFall W H sx sy k vis, rng) =
      (midFall W H sx (sy + 1) k
        (fun x y => if x = sx ∧ y = sy then true else vis x y), rng) := by
  have hvTop : IsValidPosition W H sx sy = true :=
    isValid_iff.mpr ⟨by omega, by omega, by omega, by omega⟩
  have hvBot : IsValidPosition W H sx (sy + 1) = true :=
    isValid_iff.mpr ⟨by omega, by omega, by omega, by omega⟩
  have hfsand : fallCell W H sx sy sx sy = sandFresh := by
    rw [fallCell, if_neg (by omega), if_pos ⟨rfl, rfl⟩]
  have hfempty : fallCell W H sx sy sx (sy + 1) = emptyAmbient := by
    rw [fallCell, if_neg (by omega), if_neg (by omega)]
  have hfempty2 : fallCell W H sx (sy + 1) sx sy = emptyAmbient := by
    rw [fallCell, if_neg (by omega), if_neg (by omega)]
  have hu : ((midFall W H sx sy k vis) sx sy).updated = false := by
    rw [midFall_in W H sx sy k vis sx sy hvTop]
    exact hvis
  have hl : ¬(((midFall W H sx sy k vis) sx sy).lifetime > 0) := by
    rw [midFall_in W H sx sy k vis sx sy hvTop]
    show ¬((fallCell W H sx sy sx sy).lifetime > 0)
    rw [fallCell_lifetime]
    norm_num
  rw [UP_eval_run W H sx sy (midFall W H sx sy k vis, rng) hvTop hu hl]
  show restPipeline W H sx sy (entryMark (midFall W H sx sy k vis) sx sy) rng = _
  rw [entryMark_midFall W H sx sy k vis sx sy hvTop hvis]
  have hself2 : (fun x y => if x = sx ∧ y = sy then true else vis x y) sx sy = true := by
    show (if sx = sx ∧ sy = sy then true else vis sx sy) = true
    rw [if_pos ⟨rfl, rfl⟩]
  have hbelow2 : (fun x y => if x = sx ∧ y = sy then true else vis x y) sx (sy + 1) = true := by
    show (if sx = sx ∧ sy + 1 = sy then true else vis sx (sy + 1)) = true
    rw [if_neg (by omega)]
    exact hbelow
  have hty : ((midFall W H sx sy k
      (fun x y => if x = sx ∧ y = sy then true else vis x y)) sx sy).type =
      ParticleType.SAND := by
    rw [midFall_in W H sx sy k _ sx sy hvTop]
    show (fallCell W H sx sy sx sy).type = _
    rw [hfsand]
    rfl
  have htyBelow : ((midFall W H sx sy k
      (fun x y => if x = sx ∧ y = sy then true else vis x y)) sx (sy + 1)).type =
      ParticleType.EMPTY := by
    rw [midFall_in W H sx sy k _ sx (sy + 1) hvBot]
    show (fallCell W H sx sy sx (sy + 1)).type = _
    rw [hfempty]
    rfl
  rw [restPipeline]
  rw [physics_sand_down W H _ sx sy rng hty (by omega) htyBelow]
  rw [sandSwap_eq W H sx sy k _ hsx0 hsxW hsy0 hsyH hself2 hbelow2]
  dsimp only
  rw [updTemp_const20 W H _ sx sy (midFall_temp20 W H sx (sy + 1) k _)]
  rw [hpi_noop W H _ sx sy rng (Or.inl (by
    rw [midFall_in W H sx (sy + 1) k _ sx sy hvTop]
    show (fallCell W H sx (sy + 1) sx sy).type = _
    rw [hfempty2]
    rfl))]
  dsimp only
  rw [pcr_noop W H _ sx sy (Or.inl (by
    rw [midFall_in W H sx (sy + 1) k _ sx sy hvTop]
    show (fallCell W H sx (sy + 1) sx sy).type = _
    rw [hfempty2]
    rfl))]

/-- Running the column loop over cells that do not hold the sand grain only
advances the visited frontier. -/
theorem updateCols_run (W H sx sy r : ℤ) (k : ℕ) (rng : List ℕ)
    (hr0 : 0 ≤ r) (hrH : r < H) :
    ∀ (n : ℕ) (x0 : ℤ), 0 ≤ x0 → x0 + (n : ℤ) ≤ W →
    (∀ x, x0 ≤ x → x < x0 + (n : ℤ) → ¬(x = sx ∧ r = sy)) →
    updateCols W H r n x0 (midFall W H sx sy k (scanVis r x0), rng) =
      (midFall W H sx sy k (scanVis r (x0 + (n : ℤ))), rng) := by
  intro n
  induction n with
  | zero =>
    intro x0 h0 hW hns
    show (midFall W H sx sy k (scanVis r x0), rng) = _
    norm_num
  | succ n ih =>
    intro x0 h0 hW hns
    show updateCols W H r n (x0 + 1)
        (UpdateParticle W H x0 r (midFall W H sx sy k (scanVis r x0), rng)) = _
    rw [stepA W H sx sy k (scanVis r x0) x0 r rng
      (isValid_iff.mpr ⟨h0, by omega, hr0, hrH⟩)
      (scanVis_self r x0)
      (hns x0 le_rfl (by omega))]
    rw [scanVis_extend r x0]
    rw [ih (x0 + 1) (by omega) (by push_cast at hW ⊢; omega)
      (fun x hx1 hx2 => hns x (by omega) (by push_cast at hx2 ⊢; omega))]
    have hcast : x0 + 1 + (n : ℤ) = x0 + ((n + 1 : ℕ) : ℤ) := by push_cast; ring
    rw [hcast]

theorem updateCols_add (W H y : ℤ) (m : ℕ) : ∀ (n : ℕ) (x : ℤ) (st : Grid × List ℕ),
    updateCols W H y (m + n) x st =
      updateCols W H y n (x + (m : ℤ)) (updateCols W H y m x st) := by
  induction m with
  | zero =>
    intro n x st
    rw [Nat.zero_add]
    show updateCols W H y n x st = updateCols W H y n (x + ((0 : ℕ) : ℤ)) st
    norm_num
  | succ m ih =>
    intro n x st
    have h1 : m + 1 + n = (m + n) + 1 := by omega
    rw [h1]
    show updateCols W H y (m + n) (x + 1) (UpdateParticle W H x y st) =
      updateCols W H y n (x + ((m + 1 : ℕ) : ℤ))
        (updateCols W H y m (x + 1) (UpdateParticle W H x y st))
    rw [ih n (x + 1) (UpdateParticle W H x y st)]
    have h2 : x + 1 + (m : ℤ) = x + ((m + 1 : ℕ) : ℤ) := by push_cast; ring
    rw [h2]

theorem updateRows_add (W H : ℤ) (m : ℕ) : ∀ (n : ℕ) (y : ℤ) (st : Grid × List ℕ),
    updateRows W H (m + n) y st =
      updateRows W H n (y - (m : ℤ)) (updateRows W H m y st) := by
  induction m with
  | zero =>
    intro n y st
    rw [Nat.zero_add]
    show updateRows W H n y st = updateRows W H n (y - ((0 : ℕ) : ℤ)) st
    norm_num
  | succ m ih =>
    intro n y st
    have h1 : m + 1 + n = (m + n) + 1 := by omega
    rw [h1]
    show updateRows W H (m + n) (y - 1) (updateCols W H y W.toNat 0 st) =
      updateRows W H n (y - ((m + 1 : ℕ) : ℤ))
        (updateRows W H m (y - 1) (updateCols W H y W.toNat 0 st))
    rw [ih n (y - 1) (updateCols W H y W.toNat 0 st)]
    have h2 : y - 1 - (m : ℤ) = y - ((m + 1 : ℕ) : ℤ) := by push_cast; ring
    rw [h2]

/-- Running the row loop over rows that do not contain the sand grain only
advances the visited frontier row by row. -/
theorem updateRows_run (W H sx sy : ℤ) (k : ℕ) (rng : List ℕ) (hW0 : 0 ≤ W) :
    ∀ (n : ℕ) (r : ℤ), r < H → 0 ≤ r - (n : ℤ) + 1 →
    (∀ i : ℕ, i < n → r - (i : ℤ) ≠ sy) →
    updateRows W H n r (midFall W H sx sy k (scanVis r 0), rng) =
      (midFall W H sx sy k (scanVis (r - (n : ℤ)) 0), rng) := by
  intro n
  induction n with
  | zero =>
    intro r h1 h2 h3
    show (midFall W H sx sy k (scanVis r 0), rng) = _
    norm_num
  | succ n ih =>
    intro r h1 h2 h3
    show updateRows W H n (r - 1)
        (updateCols W H r W.toNat 0 (midFall W H sx sy k (scanVis r 0), rng)) = _
    rw [updateCols_run W H sx sy r k rng (by omega) h1 W.toNat 0 le_rfl (by omega)
      (by
        intro x hx1 hx2 hc
        have := h3 0 (by omega)
        push_cast at this
        omega)]
    have hcongr : midFall W H sx sy k (scanVis r (0 + (W.toNat : ℤ))) =
        midFall W H sx sy k (scanVis (r - 1) 0) := by
      apply midFall_congr
      intro a b hval
      rw [isValid_iff] at hval
      simp only [scanVis]
      rw [decide_eq_decide]
      omega
    rw [hcongr]
    rw [ih (r - 1) (by omega) (by push_cast at h2 ⊢; omega)
      (by
        intro i hi
        have := h3 (i + 1) (by omega)
        push_cast at this ⊢
        omega)]
    have h4 : r - 1 - (n : ℤ) = r - ((n + 1 : ℕ) : ℤ) := by push_cast; ring
    rw [h4]

theorem clearFlags_fallState (W H sx sy : ℤ) (k : ℕ) :
    clearFlags W H (fallState W H sx sy k) = midFall W H sx sy k (fun _ _ => false) := by
  funext a b
  simp only [clearFlags, fallState, midFall]
  by_cases hval : IsValidPosition W H a b = true
  · simp only [if_pos hval]
    rfl
  · simp only [if_neg hval]

theorem startVis_eq (W H sx sy : ℤ) (k : ℕ) :
    midFall W H sx sy k (fun _ _ => false) = midFall W H sx sy k (scanVis (H - 1) 0) := by
  apply midFall_congr
  intro a b hval
  rw [isValid_iff] at hval
  symm
  simp only [scanVis]
  apply decide_eq_false
  omega

theorem midFall_done (W H sx sy r c : ℤ) (k : ℕ) (hr : r < 0) :
    midFall W H sx sy k (scanVis r c) = fallState W H sx sy (k + 1) := by
  funext a b
  simp only [midFall, fallState]
  by_cases hval : IsValidPosition W H a b = true
  · simp only [if_pos hval]
    have hb : 0 ≤ b := by
      rw [isValid_iff] at hval
      exact hval.2.2.1
    have hvis : scanVis r c a b = true := by
      simp only [scanVis]
      apply decide_eq_true
      omega
    have hd : decide (0 < k + 1) = true := decide_eq_true (by omega)
    rw [hvis, hd]
    rfl
  · simp only [if_neg hval]

theorem init_fallState (W H sx sy : ℤ) (hsx0 : 0 < sx) (hsxW : sx < W - 1)
    (hsy0 : 0 ≤ sy) (hsyH : sy < H - 1) :
    setCell (InitializeGrid W H) sx sy sandFresh = fallState W H sx sy 0 := by
  funext a b
  rw [setCell_eval]
  simp only [fallState, InitializeGrid]
  by_cases hc : a = sx ∧ b = sy
  · rw [if_pos hc, hc.1, hc.2]
    have hval : IsValidPosition W H sx sy = true :=
      isValid_iff.mpr ⟨by omega, by omega, by omega, by omega⟩
    rw [if_pos hval]
    have hf : fallCell W H sx sy sx sy = sandFresh := by
      rw [fallCell, if_neg (by omega), if_pos ⟨rfl, rfl⟩]
    rw [hf]
    rfl
  · rw [if_neg hc]
    by_cases hval : IsValidPosition W H a b = true
    · rw [if_pos hval]
      rw [fallCell]
      rw [if_neg hc]
      by_cases hb : b = H - 1 ∨ a = 0 ∨ a = W - 1
      · simp only [if_pos hb]
        rfl
      · simp only [if_neg hb]
        rfl
    · rw [if_neg hval]

/-- One full tick on the single-grain state: the grain descends exactly one
row while everything else stays in place. -/
theorem tick_fallState (W H sx scur : ℤ) (k : ℕ) (rng : List ℕ)
    (hsx0 : 0 < sx) (hsxW : sx < W - 1) (hs0 : 0 ≤ scur) (hsH : scur + 1 < H - 1) :
    UpdateParticles W H (fallState W H sx scur k, rng) =
      (fallState W H sx (scur + 1) (k + 1), rng) := by
  rw [UpdateParticles]
  show updateRows W H H.toNat (H - 1) (clearFlags W H (fallState W H sx scur k), rng) = _
  rw [clearFlags_fallState, startVis_eq]
  have hsplit : H.toNat = (H - 1 - scur).toNat + (1 + scur.toNat) := by omega
  rw [hsplit]
  rw [updateRows_add W H (H - 1 - scur).toNat (1 + scur.toNat) (H - 1)]
  rw [updateRows_run W H sx scur k rng (by omega) (H - 1 - scur).toNat (H - 1) (by omega)
    (by omega) (by intro i hi; omega)]
  have harg : (H - 1 : ℤ) - (((H - 1 - scur).toNat : ℕ) : ℤ) = scur := by omega
  rw [harg]
  have hone : 1 + scur.toNat = scur.toNat + 1 := by omega
  rw [hone]
  show updateRows W H scur.toNat (scur - 1)
      (updateCols W H scur W.toNat 0 (midFall W H sx scur k (scanVis scur 0), rng)) = _
  have hcols : W.toNat = sx.toNat + (1 + (W - 1 - sx).toNat) := by omega
  rw [hcols]
  rw [updateCols_add W H scur sx.toNat (1 + (W - 1 - sx).toNat) 0]
  rw [updateCols_run W H sx scur scur k rng hs0 (by omega) sx.toNat 0 le_rfl (by omega)
    (by intro x hx1 hx2 hc; omega)]
  have hsxc : (0 : ℤ) + ((sx.toNat : ℕ) : ℤ) = sx := by omega
  rw [hsxc]
  have hone2 : 1 + (W - 1 - sx).toNat = (W - 1 - sx).toNat + 1 := by omega
  rw [hone2]
  show updateRows W H scur.toNat (scur - 1)
      (updateCols W H scur (W - 1 - sx).toNat (sx + 1)
        (UpdateParticle W H sx scur (midFall W H sx scur k (scanVis scur sx), rng))) = _
  rw [stepB W H sx scur k (scanVis scur sx) rng hsx0 hsxW hs0 hsH
    (scanVis_self scur sx) (scanVis_below scur sx sx (scur + 1) (by omega))]
  rw [scanVis_extend scur sx]
  rw [updateCols_run W H sx (scur + 1) scur k rng hs0 (by omega) (W - 1 - sx).toNat (sx + 1)
    (by omega) (by omega) (by intro x hx1 hx2 hc; omega)]
  have hrow : midFall W H sx (scur + 1) k
      (scanVis scur (sx + 1 + (((W - 1 - sx).toNat : ℕ) : ℤ))) =
      midFall W H sx (scur + 1) k (scanVis (scur - 1) 0) := by
    apply midFall_congr
    intro a b hval
    rw [isValid_iff] at hval
    simp only [scanVis]
    rw [decide_eq_decide]
    omega
  rw [hrow]
  rw [updateRows_run W H sx (scur + 1) k rng (by omega) scur.toNat (scur - 1) (by omega)
    (by omega) (by intro i hi; omega)]
  rw [midFall_done W H sx (scur + 1) (scur - 1 - ((scur.toNat : ℕ) : ℤ)) 0 k (by omega)]

/-- **C3.**  A single sand grain with `n` empty rows directly beneath it, in
an otherwise empty bordered grid, descends exactly one row per tick: after
`k ≤ n` ticks it sits at row `sy + k` with everything else unchanged, so after
exactly `n` ticks it occupies the bottom-most empty row `H - 2`, never
skipping a row within one tick. -/
theorem C3_sand_falls_one_row_per_tick (W H sx sy : ℤ) (n : ℕ) (rng : List ℕ)
    (hsx0 : 0 < sx) (hsxW : sx < W - 1) (hsy0 : 0 ≤ sy)
    (hbottom : sy + (n : ℤ) = H - 2) :
    ∀ k : ℕ, k ≤ n →
      (fun st => UpdateParticles W H st)^[k]
          (setCell (InitializeGrid W H) sx sy sandFresh, rng) =
        (fallState W H sx (sy + (k : ℤ)) k, rng) := by
  intro k
  induction k with
  | zero =>
    intro hk
    rw [Function.iterate_zero_apply]
    rw [init_fallState W H sx sy hsx0 hsxW hsy0 (by omega)]
    norm_num
  | succ k ih =>
    intro hk
    rw [Function.iterate_succ_apply']
    rw [ih (by omega)]
    show UpdateParticles W H (fallState W H sx (sy + (k : ℤ)) k, rng) = _
    rw [tick_fallState W H sx (sy + (k : ℤ)) k rng hsx0 hsxW (by omega) (by omega)]
    have hc : sy + (k : ℤ) + 1 = sy + ((k + 1 : ℕ) : ℤ) := by push_cast; ring
    rw [hc]

/-- Concrete instance of C3: in a 4×6 grid the grain dropped at `(1,1)` sits
on the floor row 4 after exactly 3 ticks. -/
theorem C3_sand_falls_one_row_per_tick_witness :
    (0 : ℤ) < 1 ∧ (1 : ℤ) < 4 - 1 ∧ (0 : ℤ) ≤ 1 ∧ (1 : ℤ) + ((3 : ℕ) : ℤ) = 6 - 2 ∧
      (fun st => UpdateParticles 4 6 st)^[3]
          (setCell (InitializeGrid 4 6) 1 1 sandFresh, ([] : List ℕ)) =
        (fallState 4 6 1 (1 + ((3 : ℕ) : ℤ)) 3, ([] : List ℕ)) :=
  ⟨by decide, by decide, by decide, by decide,
    C3_sand_falls_one_row_per_tick 4 6 1 1 3 [] (by decide) (by decide) (by decide)
      (by decide) 3 le_rfl⟩
